import Mathlib

/-!
Verification of the `gmc` (Go mod create) module-creation CLI.

This file gives a shallow embedding of the core of `cli/cli.go`: the
module-creation orchestrator `createModule`, the template-asset deployer
`copyEmbeddedFS`, and the repository initializer `setUpGitRepo`, together
with the output/exit-code wiring of `AppWithCustomEverything`.

The effectful Go code is modelled by explicit state passing:
* the filesystem is a pair of a directory list and a file association list;
* every external process invocation (`go`, `git`) is recorded as a trace
  event, with its success and captured stdout supplied by an `Env` record
  modelling the ambient environment;
* the narration stream (`flogf`/`flogln`) is a `String` accumulator, and
  the separate error stream and the exit code are produced by `runApp`,
  which models the app `Action` plus its `ExitErrHandler`.
-/

deriving instance DecidableEq for Except

namespace Gmc

/-! ### String helpers (char-list based models of the Go stdlib calls) -/

/-- Appending two `String.mk` values concatenates their character lists. -/
theorem strMkAppend (l m : List Char) : String.mk l ++ String.mk m = String.mk (l ++ m) := rfl

/-- String append is associative. -/
theorem strAppendAssoc (a b c : String) : a ++ b ++ c = a ++ (b ++ c) := by
  cases a; cases b; cases c
  rw [strMkAppend, strMkAppend, strMkAppend, strMkAppend, List.append_assoc]

/-- Appending the empty string on the right is the identity. -/
theorem strAppendEmpty (a : String) : a ++ "" = a := by
  cases a
  rw [show ("" : String) = String.mk [] from rfl, strMkAppend, List.append_nil]

/-- Data of an appended string. -/
theorem strDataAppend (a b : String) : (a ++ b).data = a.data ++ b.data := by
  cases a; cases b; rfl

/-- Model of Go `strings.TrimSpace`: drop whitespace from both ends. -/
def trimSpace (s : String) : String :=
  String.mk (((s.data.dropWhile Char.isWhitespace).reverse.dropWhile Char.isWhitespace).reverse)

/-- Replace the first occurrence of character `o` by `n` in a character list.
This models `strings.Replace(s, old, new, 1)` for the single-character
arguments used in `setUpGitRepo` (cli.go line 380: old `"/"`, new `":"`). -/
def replaceFirstAux (o n : Char) : List Char → List Char
  | [] => []
  | c :: t => if c = o then n :: t else c :: replaceFirstAux o n t

/-- Model of `strings.Replace(s, o, n, 1)` for one-character patterns. -/
def stringsReplaceFirst (s : String) (o n : Char) : String :=
  String.mk (replaceFirstAux o n s.data)

/-- Character-list version of "list `pre` is an initial segment of `l`". -/
def listIsPre : List Char → List Char → Bool
  | [], _ => true
  | _ :: _, [] => false
  | a :: asx, b :: bs => a = b && listIsPre asx bs

/-- Character-list version of substring containment. -/
def listHasInfix (sub : List Char) : List Char → Bool
  | [] => sub.isEmpty
  | c :: t => listIsPre sub (c :: t) || listHasInfix sub t

/-- Model of Go `strings.Contains s sub`. -/
def containsSubstr (s sub : String) : Bool :=
  listHasInfix sub.data s.data

/-- Model of Go `path/filepath.Base` (on slash-separated paths): strip
trailing separators, then keep the last path segment; `""` gives `"."` and
an all-separator path gives `"/"`. -/
def filepathBase (p : String) : String :=
  if p = "" then "."
  else
    let l := (p.data.reverse.dropWhile (fun c => c = '/')).reverse
    if l = [] then "/"
    else String.mk ((l.reverse.takeWhile (fun c => c != '/')).reverse)

/-- Directory part of a path: everything before the last separator, and `""`
(meaning the ambient working directory) when the path has no separator. -/
def parentDir (p : String) : String :=
  if p.data.contains '/' then
    String.mk (((p.data.reverse.dropWhile (fun c => c != '/')).drop 1).reverse)
  else ""

/-- Model of Go `filepath.Join a b` specialized to the shapes reachable in
`cli.go`: `a` is a `filepath.Base` result (hence `"."`, `"/"`, or a
separator-free segment) and `b` is a clean relative path, so the `Clean`
performed by Go's `Join` only ever removes a leading `"./"`. -/
def filepathJoin (a b : String) : String :=
  if a = "" ∨ a = "." then b
  else if a = "/" then "/" ++ b
  else a ++ "/" ++ b

/-- Model of `withoutFilepathPrefix` (cli.go lines 446-449): trim the leading
occurrence of `root ++ "/"` from a path, as `strings.TrimPrefix` does. -/
def stripPathRoot (filePath : String) (filePathRoot : String) : String :=
  let pre := (filePathRoot ++ "/").data
  if listIsPre pre filePath.data then String.mk (filePath.data.drop pre.length) else filePath

/-- Left-justified padding to width `n`, as in the `%-9s` format verb of
`reportCreatedAtPath` (cli.go line 435). -/
def padRight (s : String) (n : Nat) : String :=
  s ++ String.mk (List.replicate (n - s.data.length) ' ')

/-! ### Filesystem model -/

/-- Filesystem state: the set of existing directories and an association
list from file paths to byte contents (as strings). -/
structure FS where
  dirs : List String
  files : List (String × String)
deriving DecidableEq

/-- The empty filesystem. -/
def FS.empty : FS := ⟨[], []⟩

/-- Predicate: `p` exists as a directory. -/
def FS.isDir (fs : FS) (p : String) : Prop := p ∈ fs.dirs

/-- Predicate: `p` exists as a regular file. -/
def FS.isFile (fs : FS) (p : String) : Prop := p ∈ fs.files.map Prod.fst

/-- Predicate: some entry exists at path `p`. -/
def FS.pathExists (fs : FS) (p : String) : Prop := fs.isDir p ∨ fs.isFile p

instance (fs : FS) (p : String) : Decidable (FS.isDir fs p) :=
  inferInstanceAs (Decidable (p ∈ fs.dirs))

instance (fs : FS) (p : String) : Decidable (FS.isFile fs p) :=
  inferInstanceAs (Decidable (p ∈ fs.files.map Prod.fst))

instance (fs : FS) (p : String) : Decidable (FS.pathExists fs p) :=
  inferInstanceAs (Decidable (FS.isDir fs p ∨ FS.isFile fs p))

/-- Update an association list at key `p`, keeping first-write order,
overwriting the bound value if the key is already present. -/
def setAssoc : List (String × String) → String → String → List (String × String)
  | [], p, c => [(p, c)]
  | (q, d) :: t, p, c => if q = p then (q, c) :: t else (q, d) :: setAssoc t p c

/-- Model of `os.Mkdir`: fails if the path exists (EEXIST, the error Go
renders as `mkdir <p>: file exists`) or its parent is missing (ENOENT). -/
def FS.mkdir (fs : FS) (p : String) : Except String FS :=
  if fs.pathExists p then .error ("mkdir " ++ p ++ ": file exists")
  else if parentDir p ≠ "" ∧ ¬ fs.isDir (parentDir p) then
    .error ("mkdir " ++ p ++ ": no such file or directory")
  else .ok { fs with dirs := fs.dirs ++ [p] }

/-- Model of `os.WriteFile`: creates or silently truncates a regular file;
fails if the path is a directory or the parent directory is missing. -/
def FS.writeFile (fs : FS) (p c : String) : Except String FS :=
  if fs.isDir p then .error ("open " ++ p ++ ": is a directory")
  else if parentDir p ≠ "" ∧ ¬ fs.isDir (parentDir p) then
    .error ("open " ++ p ++ ": no such file or directory")
  else .ok { fs with files := setAssoc fs.files p c }

/-! ### Events, program state, ambient environment -/

/-- Observable side effects performed by a run: directory creations, file
writes, and external process invocations (command line plus working dir). -/
inductive Act where
  | mkdirA (p : String)
  | writeA (p : String) (content : String)
  | runA (cmd : List String) (dir : String)
deriving DecidableEq

/-- Execution state threaded through the orchestrator: the filesystem, the
narration stream written so far, and the trace of performed actions. -/
structure St where
  fs : FS
  out : String
  acts : List Act
deriving DecidableEq

/-- Ambient environment: outcome of each external tool invocation and the
`EDITOR` environment variable.  `userEmail`/`userName` are the stdout of the
two `git config --global` queries (`none` models a non-zero exit), `headRef`
is the captured stdout of `git symbolic-ref --short HEAD` (whose error is
ignored by the code), and the booleans give the exit status of the remaining
external commands. -/
structure Env where
  userEmail : Option String
  userName : Option String
  gitInitOk : Bool
  gitAddOk : Bool
  gitCommitOk : Bool
  gitRemoteAddOk : Bool
  headRef : String
  goModInitOk : Bool
  editorEnvVar : String
deriving DecidableEq

/-- The `gitRepo` option record of cli.go (line 92): an optional initial
branch override. -/
structure gitRepo where
  initialBranch : Option String
deriving DecidableEq

/-- Git init command line (cli.go lines 338-341): pass the initial branch
through when an override was supplied. -/
def gitInitCmd (repo : gitRepo) : List String :=
  match repo.initialBranch with
  | none => ["git", "init"]
  | some b => ["git", "init", "--initial-branch", b]

/-! ### The embedded template store -/

/-- One entry of the embedded asset tree: a directory or a file with
contents, at its full embedded path. -/
inductive FTree where
  | dir (path : String)
  | file (path : String) (content : String)
deriving DecidableEq

/-- Path of an asset entry. -/
def FTree.path : FTree → String
  | .dir p => p
  | .file p _ => p

/-- Contents of `assets/default/main.go` (fixed at build time; reproduced in
the repository's test fixture `mainGoContents`). -/
def mainGoContents : String :=
  "package main\n\nimport (\n\t\"fmt\"\n)\n\nfunc main() \x7b\n\tfmt.Println(\"hello, world!\")\n\x7d\n"

/-- Contents of `assets/nova/.nova/Tasks/Go.json` (fixed at build time;
reproduced in the repository's test fixture `novaTaskContents`). -/
def novaTaskContents : String :=
  "\x7b\n  \"actions\": \x7b\n    \"build\": \x7b\n      \"enabled\": true,\n      \"script\": \"go build && go test ./...\"\n    \x7d,\n    \"clean\": \x7b\n      \"enabled\": true,\n      \"script\": \"go clean\"\n    \x7d,\n    \"run\": \x7b\n      \"enabled\": true,\n      \"script\": \"go run .\"\n    \x7d\n  \x7d,\n  \"openLogOnRun\": \"start\"\n\x7d\n"

/-- Modelled from the spec: the embedded, build-time-immutable Template
Store (`//go:embed all:assets`), whose data files are not part of the source
tree.  Per spec sections 2 and 6 the "default" set holds the minimal runnable
entry point `main.go` and the optional "nova" set holds the Nova editor
configuration; the concrete shape and contents match the repository's test
expectations (`cli_test.go`).  Entries are listed in the lexical
depth-first order in which `fs.WalkDir` visits them. -/
def assets : List FTree := [
  .dir "assets",
  .dir "assets/default",
  .file "assets/default/main.go" mainGoContents,
  .dir "assets/nova",
  .dir "assets/nova/.nova",
  .dir "assets/nova/.nova/Tasks",
  .file "assets/nova/.nova/Tasks/Go.json" novaTaskContents ]

/-- Constant `assetsDir` (cli.go line 89). -/
def assetsDir : String := "assets"

/-- Constant `assetsDefaultDir` (cli.go line 90). -/
def assetsDefaultDir : String := "default"

/-- Constant `gitignoreFileName` (cli.go line 96). -/
def gitignoreFileName : String := ".gitignore"

/-- Constant `readmeFileName` (cli.go line 97). -/
def readmeFileName : String := "README.md"

/-! ### Narration helpers (cli.go lines 422-444) -/

/-- Model of `flogf`: append the already-formatted text to the narration
stream unless `quiet` is set. -/
def flogf (quiet : Bool) (s : String) (st : St) : St :=
  if quiet then st else { st with out := st.out ++ s }

/-- Model of `reportCreatedAtPath`: one `- Created <kind>: <path>` line with
the kind left-justified to 9 columns. -/
def reportCreatedAtPath (quiet : Bool) (fileType filePath : String) (st : St) : St :=
  flogf quiet ("- Created " ++ padRight fileType 9 ++ ": " ++ filePath ++ "\n") st

/-- Model of `reportCreatedDir`. -/
def reportCreatedDir (quiet : Bool) (filePath : String) (st : St) : St :=
  reportCreatedAtPath quiet "directory" filePath st

/-- Model of `reportCreatedFile`. -/
def reportCreatedFile (quiet : Bool) (filePath : String) (st : St) : St :=
  reportCreatedAtPath quiet "file" filePath st

/-! ### Template deployment (cli.go lines 266-308) -/

/-- Body of the `fs.WalkDir` callback of `copyEmbeddedFS`, iterated over the
asset entries below `srcRoot` in visit order: the root itself is skipped,
directory entries are `os.Mkdir`-ed and file entries written at the
destination path obtained by re-rooting the entry under `moduleBase`; the
first failing filesystem operation aborts the walk with its error. -/
def walkCopy (entries : List FTree) (srcRoot moduleBase : String) (quiet : Bool) (st : St) :
    St × Except String Unit :=
  match entries with
  | [] => (st, .ok ())
  | e :: rest =>
    if FTree.path e = srcRoot then walkCopy rest srcRoot moduleBase quiet st
    else
      let dstPath := filepathJoin moduleBase (stripPathRoot (FTree.path e) srcRoot)
      match e with
      | .dir _ =>
        match st.fs.mkdir dstPath with
        | .error err => (st, .error err)
        | .ok fs1 =>
          let st := reportCreatedDir quiet dstPath
            { st with fs := fs1, acts := st.acts ++ [.mkdirA dstPath] }
          walkCopy rest srcRoot moduleBase quiet st
      | .file _ c =>
        match st.fs.writeFile dstPath c with
        | .error err => (st, .error err)
        | .ok fs1 =>
          let st := reportCreatedFile quiet dstPath
            { st with fs := fs1, acts := st.acts ++ [.writeA dstPath c] }
          walkCopy rest srcRoot moduleBase quiet st

/-- Model of `copyEmbeddedFS`: deploy the template set named `src` from the
embedded store into `moduleBase`.  A missing set makes the walk fail with
the embed-FS not-exist error. -/
def copyEmbeddedFS (srcFS : List FTree) (src : String) (moduleBase : String) (quiet : Bool)
    (st : St) : St × Except String Unit :=
  let srcRoot := filepathJoin assetsDir src
  if (srcFS.filter (fun e => FTree.path e = srcRoot)).isEmpty then
    (st, .error ("open " ++ srcRoot ++ ": file does not exist"))
  else
    walkCopy (srcFS.filter
      (fun e => FTree.path e = srcRoot ∨ listIsPre (srcRoot ++ "/").data (FTree.path e).data))
      srcRoot moduleBase quiet st

/-- The `for _, extraDir := range extraDirs` loop of `createModule`
(cli.go lines 221-226): deploy each requested optional set in order,
stopping at the first failure. -/
def copyEmbeddedFSList (srcFS : List FTree) (dirsToCopy : List String) (moduleBase : String)
    (quiet : Bool) (st : St) : St × Except String Unit :=
  match dirsToCopy with
  | [] => (st, .ok ())
  | d :: rest =>
    match copyEmbeddedFS srcFS d moduleBase quiet st with
    | (st1, .error e) => (st1, .error e)
    | (st1, .ok _) => copyEmbeddedFSList srcFS rest moduleBase quiet st1

/-! ### Repository initialization (cli.go lines 310-420) -/

/-- Model of `setUpGitRepo`: identity preflight, `git init`, ignore-file and
readme generation, stage and commit, then remote derivation/wiring and the
two repository next-step strings.  Returns the final state and either the
fatal error or the accumulated next steps (Go returns `(error, []string)`
with a nil slice on error). -/
def setUpGitRepo (env : Env) (repo : gitRepo) (module moduleBase : String) (quiet : Bool)
    (st : St) : St × Except String (List String) :=
  -- Ensure Git user.email is set
  let st := { st with acts := st.acts ++ [.runA ["git", "config", "--global", "user.email"] moduleBase] }
  match env.userEmail with
  | none => (st, .error "Failed to look up Git user.email")
  | some emailOut =>
  if trimSpace emailOut = "" then (st, .error "`git config --global user.email` must be set")
  else
  -- Ensure Git user.name is set
  let st := { st with acts := st.acts ++ [.runA ["git", "config", "--global", "user.name"] moduleBase] }
  match env.userName with
  | none => (st, .error "Failed to look up Git user.name")
  | some nameOut =>
  if trimSpace nameOut = "" then (st, .error "`git config --global user.name` must be set")
  else
  -- Initialize Git repository
  let st := { st with acts := st.acts ++ [.runA (gitInitCmd repo) moduleBase] }
  if env.gitInitOk = false then (st, .error "Failed to initialize Git repository")
  else
  let st := flogf quiet "- Initialized Git repository\n" st
  -- Create .gitignore
  let gitignoreFilePath := filepathJoin moduleBase gitignoreFileName
  match st.fs.writeFile gitignoreFilePath moduleBase with
  | .error e => (st, .error e)
  | .ok fs1 =>
  let st := reportCreatedFile quiet gitignoreFilePath
    { st with fs := fs1, acts := st.acts ++ [.writeA gitignoreFilePath moduleBase] }
  -- Create README.md (with title)
  let readmeFilePath := filepathJoin moduleBase readmeFileName
  let readmeContent := "# " ++ moduleBase ++ "\n\n"
  match st.fs.writeFile readmeFilePath readmeContent with
  | .error e => (st, .error e)
  | .ok fs2 =>
  let st := reportCreatedFile quiet readmeFilePath
    { st with fs := fs2, acts := st.acts ++ [.writeA readmeFilePath readmeContent] }
  -- Commit all files to Git repository
  let st := { st with acts := st.acts ++ [.runA ["git", "add", "."] moduleBase] }
  if env.gitAddOk = false then (st, .error "Failed to stage files for Git commit")
  else
  let st := { st with acts := st.acts ++ [.runA ["git", "commit", "-m", "Initial commit"] moduleBase] }
  if env.gitCommitOk = false then (st, .error "Failed to commit files into Git repository")
  else
  let st := flogf quiet "- Committed all files to Git repository\n" st
  -- Add Git repository remote
  let gitUrlCore := stringsReplaceFirst module '/' ':'
  let remoteStep : St × Except String String :=
    if gitUrlCore = module then
      (flogf quiet "- NOTE: Unable to add remote for Git repository\n" st, .ok "")
    else
      let gitUrl := "git@" ++ gitUrlCore ++ ".git"
      let st := { st with acts := st.acts ++ [.runA ["git", "remote", "add", "origin", gitUrl] moduleBase] }
      if env.gitRemoteAddOk = false then (st, .error "Failed to stage files for Git commit")
      else (flogf quiet ("- Added remote for Git repository: " ++ gitUrl ++ "\n") st, .ok gitUrl)
  match remoteStep with
  | (st1, .error e) => (st1, .error e)
  | (st1, .ok gitUrl) =>
  -- Add next step: Create remote repository
  let nextStepCreateRemote :=
    if gitUrl.data.length > 0 then
      "Create remote Git repository" ++ (" " ++ gitUrl) ++
        (if containsSubstr gitUrl "github.com" then ": https://github.com/new" else "")
    else "Create remote Git repository"
  -- Add next step: Push to remote (symbolic-ref error is ignored)
  let st1 := { st1 with acts := st1.acts ++ [.runA ["git", "symbolic-ref", "--short", "HEAD"] moduleBase] }
  let branch := trimSpace env.headRef
  let nextStepPush := "Push to remote Git repository: $ git push -u origin " ++
    (if branch ≠ "" then branch else "$(git branch --show-current)")
  (st1, .ok [nextStepCreateRemote, nextStepPush])

/-! ### The orchestrator (cli.go lines 193-264) -/

/-- Tail of `createModule` after the optional git step (cli.go lines
238-263): success narration, the unconditional "Start coding" next step with
the editor preference resolution, and the final next-steps emission (skipped
when the list is empty). -/
def createModuleFinish (env : Env) (module moduleBase : String) (extraDirs : List String)
    (quiet : Bool) (nextSteps : List String) (st : St) :
    St × Except String Unit × List String :=
  let st := flogf quiet ("\nFinished creating Go module: " ++ module ++ "\n") st
  -- Add next step: Start coding!
  let editor := "$EDITOR"
  let editor := if env.editorEnvVar ≠ "" then env.editorEnvVar else editor
  let editor := if extraDirs.contains "nova" then "nova" else editor
  let nextSteps := nextSteps ++ ["Start coding: $ " ++ editor ++ " " ++ moduleBase]
  -- Output next steps
  let st :=
    if nextSteps.length > 0 then
      (nextSteps.foldl (fun s step => flogf quiet ("- " ++ step ++ "\n") s)
        (flogf quiet "\nNext steps:\n" st))
    else st
  (st, .ok (), nextSteps)

/-- Model of `createModule`, additionally exposing the internally
accumulated next-steps list (empty on error, matching the Go code where the
list is simply never rendered). -/
def createModuleFull (env : Env) (module : String) (repo : Option gitRepo)
    (extraDirs : List String) (quiet : Bool) (st : St) :
    St × Except String Unit × List String :=
  let st := flogf quiet ("Creating Go module: " ++ module ++ "\n") st
  let moduleBase := filepathBase module
  -- Create module directory
  match st.fs.mkdir moduleBase with
  | .error e => (st, .error e, [])
  | .ok fs1 =>
  let st := reportCreatedDir quiet moduleBase
    { st with fs := fs1, acts := st.acts ++ [.mkdirA moduleBase] }
  -- Create go.mod (the file itself is owned by the external tool)
  let st := { st with acts := st.acts ++ [.runA ["go", "mod", "init", module] moduleBase] }
  if env.goModInitOk = false then (st, .error "exit status 1", [])
  else
  let st := flogf quiet "- Initialized Go module\n" st
  -- Copy over assets
  match copyEmbeddedFS assets assetsDefaultDir moduleBase quiet st with
  | (st1, .error e) => (st1, .error e, [])
  | (st1, .ok _) =>
  -- Copy over extras
  match copyEmbeddedFSList assets extraDirs moduleBase quiet st1 with
  | (st2, .error e) => (st2, .error e, [])
  | (st2, .ok _) =>
  -- Set up Git repo
  match repo with
  | some r =>
    match setUpGitRepo env r module moduleBase quiet st2 with
    | (st3, .error e) => (st3, .error ("Failed to create as Git repository: " ++ e), [])
    | (st3, .ok gitRepoNextSteps) =>
      createModuleFinish env module moduleBase extraDirs quiet gitRepoNextSteps st3
  | none => createModuleFinish env module moduleBase extraDirs quiet [] st2

/-- Model of `createModule` as called by the app action: only the state and
the error are observable to the caller. -/
def createModule (env : Env) (module : String) (repo : Option gitRepo)
    (extraDirs : List String) (quiet : Bool) (st : St) : St × Except String Unit :=
  let r := createModuleFull env module repo extraDirs quiet st
  (r.1, r.2.1)

/-! ### The app action and exit wiring (cli.go lines 110-191) -/

/-- Observable outcome of one app invocation with a single module argument:
final state (narration stream, filesystem, action trace), the error-stream
contents, the exit code handed to the exit-code handler, and the internal
next-steps list. -/
structure AppResult where
  st : St
  errOut : String
  exitCode : Nat
  nextSteps : List String
deriving DecidableEq

/-- Model of the `AppWithCustomEverything` action for a valid single module
argument, combined with its `ExitErrHandler`: flags are translated exactly
as in cli.go lines 169-183, and on failure the wrapped error message is
written to the error stream through `flogf` (so it is itself gated on
`quiet`), with exit code 1. -/
def runApp (env : Env) (gitInitialBranch : Option String) (module : String)
    (git nova quiet : Bool) (fs0 : FS) : AppResult :=
  let repo : Option gitRepo := if git then some ⟨gitInitialBranch⟩ else none
  let extraDirs : List String := if nova then ["nova"] else []
  let r := createModuleFull env module repo extraDirs quiet ⟨fs0, "", []⟩
  match r.2.1 with
  | .ok _ => { st := r.1, errOut := "", exitCode := 0, nextSteps := r.2.2 }
  | .error e =>
    let msg := "Failed to create Go module: " ++ module ++ ": " ++ e
    { st := r.1, errOut := if quiet then "" else msg ++ "\n", exitCode := 1, nextSteps := r.2.2 }

end Gmc

namespace Gmc

/-! ### Small facts about the helpers -/

/-- Narration in quiet mode is the identity on the state. -/
@[simp] theorem flogf_true (s : String) (st : St) : flogf true s st = st := rfl

/-- Narration in loud mode appends to the output stream. -/
@[simp] theorem flogf_false (s : String) (st : St) :
    flogf false s st = { st with out := st.out ++ s } := rfl

/-- The file-kind column padded to 9 characters. -/
theorem padRight_file : padRight "file" 9 = "file     " := by decide

/-- The directory-kind column padded to 9 characters. -/
theorem padRight_directory : padRight "directory" 9 = "directory" := by decide

/-- Replacing the first slash changes the string when a slash is present. -/
theorem replaceFirstAux_ne {l : List Char} (h : '/' ∈ l) :
    replaceFirstAux '/' ':' l ≠ l := by
  induction l with
  | nil => cases h
  | cons c t ih =>
    by_cases hc : c = '/'
    · subst hc
      simp [replaceFirstAux]
    · simp only [replaceFirstAux, if_neg hc, ne_eq, List.cons.injEq, not_and, true_implies]
      exact ih (by
        rcases List.mem_cons.mp h with h1 | h1
        · exact absurd h1.symm hc
        · exact h1)

/-- Replacing the first slash is the identity when no slash is present. -/
theorem replaceFirstAux_eq {l : List Char} (h : '/' ∉ l) :
    replaceFirstAux '/' ':' l = l := by
  induction l with
  | nil => rfl
  | cons c t ih =>
    have hc : c ≠ '/' := fun hh => h (hh ▸ List.mem_cons_self c t)
    simp only [replaceFirstAux, if_neg hc, List.cons.injEq, true_and]
    exact ih (fun hh => h (List.mem_cons_of_mem c hh))

/-- A module identifier containing a separator is changed by the
first-separator replacement. -/
theorem stringsReplaceFirst_ne {module : String} (h : '/' ∈ module.data) :
    stringsReplaceFirst module '/' ':' ≠ module := by
  cases module with
  | mk l =>
    intro he
    exact replaceFirstAux_ne h (congrArg String.data he)

/-- A module identifier without separators is unchanged by the
first-separator replacement. -/
theorem stringsReplaceFirst_eq {module : String} (h : '/' ∉ module.data) :
    stringsReplaceFirst module '/' ':' = module := by
  cases module with
  | mk l => exact congrArg String.mk (replaceFirstAux_eq h)

/-- Successful `os.Mkdir`: fresh path with an existing (or ambient) parent. -/
theorem FS.mkdir_ok (fs : FS) (p : String) (h1 : ¬ fs.pathExists p)
    (h2 : parentDir p = "" ∨ fs.isDir (parentDir p)) :
    fs.mkdir p = .ok ⟨fs.dirs ++ [p], fs.files⟩ := by
  unfold FS.mkdir
  rw [if_neg h1, if_neg (by rcases h2 with h2 | h2 <;> simp [h2])]

/-- Successful `os.WriteFile`: the path is not a directory and its parent
exists (or is the ambient working directory). -/
theorem FS.writeFile_ok (fs : FS) (p c : String) (h1 : ¬ fs.isDir p)
    (h2 : parentDir p = "" ∨ fs.isDir (parentDir p)) :
    fs.writeFile p c = .ok ⟨fs.dirs, setAssoc fs.files p c⟩ := by
  unfold FS.writeFile
  rw [if_neg h1, if_neg (by rcases h2 with h2 | h2 <;> simp [h2])]

/-- The conventional remote URL derived from the module identifier
(cli.go lines 380-383): replace the first `/` by `:`, then add the `git@`
user-host prAmble and the `.git` suffix. -/
def gitUrlOf (module : String) : String :=
  "git@" ++ stringsReplaceFirst module '/' ':' ++ ".git"

end Gmc

namespace Gmc

theorem emptyStrData : ("" : String).data = [] := rfl

theorem setUpGitRepo_ok_noslash (env : Env) (repo : gitRepo) (module moduleBase : String)
    (quiet : Bool) (st : St) (e n : String)
    (he : env.userEmail = some e) (he2 : trimSpace e ≠ "")
    (hn : env.userName = some n) (hn2 : trimSpace n ≠ "")
    (hi : env.gitInitOk = true) (ha : env.gitAddOk = true) (hc : env.gitCommitOk = true)
    (hnos : stringsReplaceFirst module '/' ':' = module)
    (hg1 : ¬ st.fs.isDir (filepathJoin moduleBase gitignoreFileName))
    (hg2 : parentDir (filepathJoin moduleBase gitignoreFileName) = "" ∨
      st.fs.isDir (parentDir (filepathJoin moduleBase gitignoreFileName)))
    (hm1 : ¬ st.fs.isDir (filepathJoin moduleBase readmeFileName))
    (hm2 : parentDir (filepathJoin moduleBase readmeFileName) = "" ∨
      st.fs.isDir (parentDir (filepathJoin moduleBase readmeFileName))) :
    setUpGitRepo env repo module moduleBase quiet st =
      (⟨⟨st.fs.dirs,
          setAssoc (setAssoc st.fs.files (filepathJoin moduleBase gitignoreFileName) moduleBase)
            (filepathJoin moduleBase readmeFileName) ("# " ++ moduleBase ++ "\n\n")⟩,
        st.out ++ (if quiet = true then "" else
          "- Initialized Git repository\n" ++
          ("- Created file     : " ++ filepathJoin moduleBase gitignoreFileName ++ "\n") ++
          ("- Created file     : " ++ filepathJoin moduleBase readmeFileName ++ "\n") ++
          "- Committed all files to Git repository\n" ++
          "- NOTE: Unable to add remote for Git repository\n"),
        st.acts ++ [
          .runA ["git", "config", "--global", "user.email"] moduleBase,
          .runA ["git", "config", "--global", "user.name"] moduleBase,
          .runA (gitInitCmd repo) moduleBase,
          .writeA (filepathJoin moduleBase gitignoreFileName) moduleBase,
          .writeA (filepathJoin moduleBase readmeFileName) ("# " ++ moduleBase ++ "\n\n"),
          .runA ["git", "add", "."] moduleBase,
          .runA ["git", "commit", "-m", "Initial commit"] moduleBase,
          .runA ["git", "symbolic-ref", "--short", "HEAD"] moduleBase]⟩,
       .ok ["Create remote Git repository",
            "Push to remote Git repository: $ git push -u origin " ++
              (if trimSpace env.headRef ≠ "" then trimSpace env.headRef
               else "$(git branch --show-current)")]) := by
  have hgw := FS.writeFile_ok st.fs (filepathJoin moduleBase gitignoreFileName) moduleBase hg1 hg2
  have hrw := FS.writeFile_ok ⟨st.fs.dirs, setAssoc st.fs.files (filepathJoin moduleBase gitignoreFileName) moduleBase⟩
      (filepathJoin moduleBase readmeFileName) ("# " ++ moduleBase ++ "\n\n")
      (by simpa [FS.isDir] using hm1)
      (by simpa [FS.isDir] using hm2)
  cases quiet with
  | true =>
    simp only [setUpGitRepo, he, hn, hi, ha, hc, flogf_true, if_neg he2, if_neg hn2,
      reportCreatedFile, reportCreatedAtPath, padRight_file]
    rw [hgw]
    simp only [flogf_true]
    rw [hrw]
    simp only [flogf_true, if_pos hnos, emptyStrData]
    simp [List.append_assoc, strAppendEmpty]
  | false =>
    simp only [setUpGitRepo, he, hn, hi, ha, hc, flogf_false, if_neg he2, if_neg hn2,
      reportCreatedFile, reportCreatedAtPath, padRight_file]
    rw [hgw]
    simp only [flogf_false]
    rw [hrw]
    simp only [flogf_false, if_pos hnos, emptyStrData]
    simp [List.append_assoc, strAppendAssoc]


end Gmc

namespace Gmc

/-- Master lemma: a fully successful `setUpGitRepo` run on an identifier
containing a separator. -/
theorem setUpGitRepo_ok_slash (env : Env) (repo : gitRepo) (module moduleBase : String)
    (quiet : Bool) (st : St) (e n : String)
    (he : env.userEmail = some e) (he2 : trimSpace e ≠ "")
    (hn : env.userName = some n) (hn2 : trimSpace n ≠ "")
    (hi : env.gitInitOk = true) (ha : env.gitAddOk = true) (hc : env.gitCommitOk = true)
    (hra : env.gitRemoteAddOk = true)
    (hslash : stringsReplaceFirst module '/' ':' ≠ module)
    (hg1 : ¬ st.fs.isDir (filepathJoin moduleBase gitignoreFileName))
    (hg2 : parentDir (filepathJoin moduleBase gitignoreFileName) = "" ∨
      st.fs.isDir (parentDir (filepathJoin moduleBase gitignoreFileName)))
    (hm1 : ¬ st.fs.isDir (filepathJoin moduleBase readmeFileName))
    (hm2 : parentDir (filepathJoin moduleBase readmeFileName) = "" ∨
      st.fs.isDir (parentDir (filepathJoin moduleBase readmeFileName))) :
    setUpGitRepo env repo module moduleBase quiet st =
      (⟨⟨st.fs.dirs,
          setAssoc (setAssoc st.fs.files (filepathJoin moduleBase gitignoreFileName) moduleBase)
            (filepathJoin moduleBase readmeFileName) ("# " ++ moduleBase ++ "\n\n")⟩,
        st.out ++ (if quiet = true then "" else
          "- Initialized Git repository\n" ++
          ("- Created file     : " ++ filepathJoin moduleBase gitignoreFileName ++ "\n") ++
          ("- Created file     : " ++ filepathJoin moduleBase readmeFileName ++ "\n") ++
          "- Committed all files to Git repository\n" ++
          ("- Added remote for Git repository: " ++ gitUrlOf module ++ "\n")),
        st.acts ++ [
          .runA ["git", "config", "--global", "user.email"] moduleBase,
          .runA ["git", "config", "--global", "user.name"] moduleBase,
          .runA (gitInitCmd repo) moduleBase,
          .writeA (filepathJoin moduleBase gitignoreFileName) moduleBase,
          .writeA (filepathJoin moduleBase readmeFileName) ("# " ++ moduleBase ++ "\n\n"),
          .runA ["git", "add", "."] moduleBase,
          .runA ["git", "commit", "-m", "Initial commit"] moduleBase,
          .runA ["git", "remote", "add", "origin", gitUrlOf module] moduleBase,
          .runA ["git", "symbolic-ref", "--short", "HEAD"] moduleBase]⟩,
       .ok ["Create remote Git repository" ++ (" " ++ gitUrlOf module) ++
              (if containsSubstr (gitUrlOf module) "github.com" then ": https://github.com/new" else ""),
            "Push to remote Git repository: $ git push -u origin " ++
              (if trimSpace env.headRef ≠ "" then trimSpace env.headRef
               else "$(git branch --show-current)")]) := by
  have hgw := FS.writeFile_ok st.fs (filepathJoin moduleBase gitignoreFileName) moduleBase hg1 hg2
  have hrw := FS.writeFile_ok ⟨st.fs.dirs, setAssoc st.fs.files (filepathJoin moduleBase gitignoreFileName) moduleBase⟩
      (filepathJoin moduleBase readmeFileName) ("# " ++ moduleBase ++ "\n\n")
      (by simpa [FS.isDir] using hm1)
      (by simpa [FS.isDir] using hm2)
  cases quiet with
  | true =>
    simp only [setUpGitRepo, he, hn, hi, ha, hc, hra, flogf_true, if_neg he2, if_neg hn2,
      reportCreatedFile, reportCreatedAtPath, padRight_file]
    rw [hgw]
    simp only [flogf_true]
    rw [hrw]
    simp only [flogf_true, if_neg hslash, gitUrlOf]
    simp [List.append_assoc, strAppendEmpty]
  | false =>
    simp only [setUpGitRepo, he, hn, hi, ha, hc, hra, flogf_false, if_neg he2, if_neg hn2,
      reportCreatedFile, reportCreatedAtPath, padRight_file]
    rw [hgw]
    simp only [flogf_false]
    rw [hrw]
    simp only [flogf_false, if_neg hslash, gitUrlOf]
    simp [List.append_assoc, strAppendAssoc]

end Gmc

namespace Gmc

/-- A fully cooperative environment used by concrete witnesses. -/
def envAllOk : Env :=
  { userEmail := some "dev@example.com\n", userName := some "Dev Eloper\n",
    gitInitOk := true, gitAddOk := true, gitCommitOk := true, gitRemoteAddOk := true,
    headRef := "main\n", goModInitOk := true, editorEnvVar := "vim" }

/-- A state whose filesystem holds just the freshly created workspace `bar`. -/
def stBar : St := ⟨⟨["bar"], []⟩, "", []⟩

/-- Claim C1: for every module identifier containing a path separator, the
repository initializer derives the remote URL by replacing the first `/`
with `:`, prefixing `git@` and appending `.git`, and passes exactly that URL
to the `git remote add origin` invocation. -/
theorem claim_C1 (env : Env) (repo : gitRepo) (module moduleBase : String)
    (quiet : Bool) (st : St) (e n : String)
    (he : env.userEmail = some e) (he2 : trimSpace e ≠ "")
    (hn : env.userName = some n) (hn2 : trimSpace n ≠ "")
    (hi : env.gitInitOk = true) (ha : env.gitAddOk = true) (hc : env.gitCommitOk = true)
    (hra : env.gitRemoteAddOk = true)
    (hslash : '/' ∈ module.data)
    (hg1 : ¬ st.fs.isDir (filepathJoin moduleBase gitignoreFileName))
    (hg2 : parentDir (filepathJoin moduleBase gitignoreFileName) = "" ∨
      st.fs.isDir (parentDir (filepathJoin moduleBase gitignoreFileName)))
    (hm1 : ¬ st.fs.isDir (filepathJoin moduleBase readmeFileName))
    (hm2 : parentDir (filepathJoin moduleBase readmeFileName) = "" ∨
      st.fs.isDir (parentDir (filepathJoin moduleBase readmeFileName))) :
    (setUpGitRepo env repo module moduleBase quiet st).2.isOk = true ∧
    (setUpGitRepo env repo module moduleBase quiet st).1.acts =
      st.acts ++ [
        .runA ["git", "config", "--global", "user.email"] moduleBase,
        .runA ["git", "config", "--global", "user.name"] moduleBase,
        .runA (gitInitCmd repo) moduleBase,
        .writeA (filepathJoin moduleBase gitignoreFileName) moduleBase,
        .writeA (filepathJoin moduleBase readmeFileName) ("# " ++ moduleBase ++ "\n\n"),
        .runA ["git", "add", "."] moduleBase,
        .runA ["git", "commit", "-m", "Initial commit"] moduleBase,
        .runA ["git", "remote", "add", "origin",
          "git@" ++ stringsReplaceFirst module '/' ':' ++ ".git"] moduleBase,
        .runA ["git", "symbolic-ref", "--short", "HEAD"] moduleBase] := by
  rw [setUpGitRepo_ok_slash env repo module moduleBase quiet st e n he he2 hn hn2 hi ha hc hra
    (stringsReplaceFirst_ne hslash) hg1 hg2 hm1 hm2]
  exact ⟨rfl, rfl⟩

/-- Witness for C1: the identifier `github.com/foo/bar` yields exactly the
remote URL `git@github.com:foo/bar.git`. -/
theorem claim_C1_witness :
    ('/' ∈ "github.com/foo/bar".data) ∧
    (setUpGitRepo envAllOk ⟨none⟩ "github.com/foo/bar" "bar" false stBar).1.acts =
      stBar.acts ++ [
        .runA ["git", "config", "--global", "user.email"] "bar",
        .runA ["git", "config", "--global", "user.name"] "bar",
        .runA ["git", "init"] "bar",
        .writeA "bar/.gitignore" "bar",
        .writeA "bar/README.md" "# bar\n\n",
        .runA ["git", "add", "."] "bar",
        .runA ["git", "commit", "-m", "Initial commit"] "bar",
        .runA ["git", "remote", "add", "origin", "git@github.com:foo/bar.git"] "bar",
        .runA ["git", "symbolic-ref", "--short", "HEAD"] "bar"] := by
  refine ⟨by decide, ?_⟩
  have h := claim_C1 envAllOk ⟨none⟩ "github.com/foo/bar" "bar" false stBar
    "dev@example.com\n" "Dev Eloper\n" rfl (by decide) rfl (by decide) rfl rfl rfl rfl
    (by decide) (by decide) (by decide) (by decide) (by decide)
  exact h.2.trans (by decide)


end Gmc

namespace Gmc

/-- Specification helper: the outcome of the identity preflight of
`setUpGitRepo` (cli.go lines 313-335) — `some msg` when the preflight fails
with error message `msg`, `none` when both identity values are present. -/
def identityCheck (env : Env) : Option String :=
  match env.userEmail with
  | none => some "Failed to look up Git user.email"
  | some e =>
    if trimSpace e = "" then some "`git config --global user.email` must be set"
    else
      match env.userName with
      | none => some "Failed to look up Git user.name"
      | some n =>
        if trimSpace n = "" then some "`git config --global user.name` must be set"
        else none

/-- Specification helper: the identity queries actually issued before the
preflight fails or passes (the `user.name` query is only reached when the
`user.email` one produced a non-blank value). -/
def identityProbeActs (env : Env) (moduleBase : String) : List Act :=
  match env.userEmail with
  | none => [.runA ["git", "config", "--global", "user.email"] moduleBase]
  | some e =>
    if trimSpace e = "" then [.runA ["git", "config", "--global", "user.email"] moduleBase]
    else
      [.runA ["git", "config", "--global", "user.email"] moduleBase,
       .runA ["git", "config", "--global", "user.name"] moduleBase]

/-- The git-init command is never one of the identity queries. -/
theorem gitInitCmd_ne_probe (repo : gitRepo) :
    gitInitCmd repo ≠ ["git", "config", "--global", "user.email"] ∧
    gitInitCmd repo ≠ ["git", "config", "--global", "user.name"] := by
  cases h : repo.initialBranch <;> simp [gitInitCmd, h]

/-- Claim C7: a failing or blank identity query makes `setUpGitRepo` fail
before `git init` is ever invoked, with one of the four dedicated
configuration messages, none of which is a generic tool-failure message. -/
theorem claim_C7 (env : Env) (repo : gitRepo) (module moduleBase : String)
    (quiet : Bool) (st : St) (msg : String)
    (h : identityCheck env = some msg) :
    setUpGitRepo env repo module moduleBase quiet st =
      (⟨st.fs, st.out, st.acts ++ identityProbeActs env moduleBase⟩, .error msg) ∧
    msg ∈ ["Failed to look up Git user.email", "`git config --global user.email` must be set",
           "Failed to look up Git user.name", "`git config --global user.name` must be set"] ∧
    msg ∉ ["Failed to initialize Git repository", "Failed to stage files for Git commit",
           "Failed to commit files into Git repository", "exit status 1"] ∧
    (∀ d, Act.runA (gitInitCmd repo) d ∉ identityProbeActs env moduleBase) := by
  cases he : env.userEmail with
  | none =>
    simp only [identityCheck, he, Option.some.injEq] at h
    subst h
    refine ⟨?_, by decide, by decide, ?_⟩
    · simp [setUpGitRepo, he, identityProbeActs]
    · intro d
      simp [identityProbeActs, he, (gitInitCmd_ne_probe repo).1]
  | some e =>
    by_cases hte : trimSpace e = ""
    · simp only [identityCheck, he, hte, if_pos, Option.some.injEq] at h
      subst h
      refine ⟨?_, by decide, by decide, ?_⟩
      · simp [setUpGitRepo, he, hte, identityProbeActs]
      · intro d
        simp [identityProbeActs, he, hte, (gitInitCmd_ne_probe repo).1]
    · cases hnm : env.userName with
      | none =>
        simp only [identityCheck, he, hnm, if_neg hte, Option.some.injEq] at h
        subst h
        refine ⟨?_, by decide, by decide, ?_⟩
        · simp [setUpGitRepo, he, hnm, hte, identityProbeActs, List.append_assoc]
        · intro d
          simp [identityProbeActs, he, if_neg hte, (gitInitCmd_ne_probe repo).1,
            (gitInitCmd_ne_probe repo).2]
      | some n =>
        by_cases htn : trimSpace n = ""
        · simp only [identityCheck, he, hnm, if_neg hte, htn, if_pos, Option.some.injEq] at h
          subst h
          refine ⟨?_, by decide, by decide, ?_⟩
          · simp [setUpGitRepo, he, hnm, hte, htn, identityProbeActs, List.append_assoc]
          · intro d
            simp [identityProbeActs, he, if_neg hte, (gitInitCmd_ne_probe repo).1,
              (gitInitCmd_ne_probe repo).2]
        · simp [identityCheck, he, hnm, if_neg hte, if_neg htn] at h

/-- Witness for C7: with no configured email the initializer fails with the
email lookup message and no `git init` appears in the trace. -/
theorem claim_C7_witness :
    (identityCheck ⟨none, some "N", true, true, true, true, "main", true, ""⟩ =
      some "Failed to look up Git user.email") ∧
    setUpGitRepo ⟨none, some "N", true, true, true, true, "main", true, ""⟩ ⟨some "main"⟩
        "github.com/foo/bar" "bar" false stBar =
      (⟨stBar.fs, stBar.out,
        stBar.acts ++ [.runA ["git", "config", "--global", "user.email"] "bar"]⟩,
       .error "Failed to look up Git user.email") := by
  refine ⟨by decide, ?_⟩
  have h := (claim_C7 ⟨none, some "N", true, true, true, true, "main", true, ""⟩ ⟨some "main"⟩
    "github.com/foo/bar" "bar" false stBar "Failed to look up Git user.email" (by decide)).1
  exact h.trans (by decide)


end Gmc

namespace Gmc

/-- Projections of `flogf` that do not concern the narration stream. -/
@[simp] theorem flogf_fs (q : Bool) (s : String) (st : St) : (flogf q s st).fs = st.fs := by
  cases q <;> rfl

/-- Action trace is unchanged by narration. -/
@[simp] theorem flogf_acts (q : Bool) (s : String) (st : St) : (flogf q s st).acts = st.acts := by
  cases q <;> rfl

/-- Filesystem projection of a created-directory report. -/
@[simp] theorem reportCreatedDir_fs (q : Bool) (p : String) (st : St) :
    (reportCreatedDir q p st).fs = st.fs := by
  simp [reportCreatedDir, reportCreatedAtPath]

/-- Trace projection of a created-directory report. -/
@[simp] theorem reportCreatedDir_acts (q : Bool) (p : String) (st : St) :
    (reportCreatedDir q p st).acts = st.acts := by
  simp [reportCreatedDir, reportCreatedAtPath]

/-- Filesystem projection of a created-file report. -/
@[simp] theorem reportCreatedFile_fs (q : Bool) (p : String) (st : St) :
    (reportCreatedFile q p st).fs = st.fs := by
  simp [reportCreatedFile, reportCreatedAtPath]

/-- Trace projection of a created-file report. -/
@[simp] theorem reportCreatedFile_acts (q : Bool) (p : String) (st : St) :
    (reportCreatedFile q p st).acts = st.acts := by
  simp [reportCreatedFile, reportCreatedAtPath]

/-- Inversion of a successful `mkdir`. -/
theorem FS.mkdir_inv {fs fs' : FS} {p : String} (h : fs.mkdir p = .ok fs') :
    fs' = ⟨fs.dirs ++ [p], fs.files⟩ ∧ ¬ fs.pathExists p := by
  unfold FS.mkdir at h
  split at h
  · exact absurd h (by simp)
  · split at h
    · exact absurd h (by simp)
    · exact ⟨by injection h with h2; exact h2.symm, by assumption⟩

/-- Inversion of a successful `writeFile`. -/
theorem FS.writeFile_inv {fs fs' : FS} {p c : String} (h : fs.writeFile p c = .ok fs') :
    fs' = ⟨fs.dirs, setAssoc fs.files p c⟩ := by
  unfold FS.writeFile at h
  split at h
  · exact absurd h (by simp)
  · split at h
    · exact absurd h (by simp)
    · injection h with h2; exact h2.symm


theorem copyNova_unfold (mb : String) (q : Bool) (st : St) :
    copyEmbeddedFS assets "nova" mb q st =
      walkCopy [FTree.dir "assets/nova", FTree.dir "assets/nova/.nova",
        FTree.dir "assets/nova/.nova/Tasks",
        FTree.file "assets/nova/.nova/Tasks/Go.json" novaTaskContents]
        "assets/nova" mb q st := by
  simp [copyEmbeddedFS, assets, assetsDir, filepathJoin, listIsPre, FTree.path, List.filter]

theorem copyDefault_unfold (mb : String) (q : Bool) (st : St) :
    copyEmbeddedFS assets "default" mb q st =
      walkCopy [FTree.dir "assets/default", FTree.file "assets/default/main.go" mainGoContents]
        "assets/default" mb q st := by
  simp [copyEmbeddedFS, assets, assetsDir, filepathJoin, listIsPre, FTree.path, List.filter]

theorem stripN1 : stripPathRoot "assets/nova/.nova" "assets/nova" = ".nova" := by decide

theorem stripN2 : stripPathRoot "assets/nova/.nova/Tasks" "assets/nova" = ".nova/Tasks" := by decide

theorem stripN3 :
    stripPathRoot "assets/nova/.nova/Tasks/Go.json" "assets/nova" = ".nova/Tasks/Go.json" := by
  decide

/-- Claim C4 counterexample: deploying the "default" template set twice into
the same destination succeeds both times — the set's only entry is a file,
which the second run silently overwrites, so double deployment does NOT fail
as the claim asserts for every set. -/
theorem claim_C4_counterexample :
    (copyEmbeddedFS assets "default" "bar" false ⟨⟨["bar"], []⟩, "", []⟩).2 = .ok () ∧
    (copyEmbeddedFS assets "default" "bar" false
      (copyEmbeddedFS assets "default" "bar" false ⟨⟨["bar"], []⟩, "", []⟩).1).2 = .ok () := by
  decide

/-- Inversion: a successful "nova" deployment creates exactly the two
directories and the task file under the destination. -/
theorem copyNova_fs_inv (mb : String) (q : Bool) (st : St)
    (h : (copyEmbeddedFS assets "nova" mb q st).2 = .ok ()) :
    ((copyEmbeddedFS assets "nova" mb q st).1).fs =
      ⟨st.fs.dirs ++ [filepathJoin mb ".nova", filepathJoin mb ".nova/Tasks"],
       setAssoc st.fs.files (filepathJoin mb ".nova/Tasks/Go.json") novaTaskContents⟩ := by
  rw [copyNova_unfold] at h ⊢
  simp only [walkCopy, FTree.path, stripN1, stripN2, stripN3, String.reduceEq,
    ite_false, ite_true] at h ⊢
  cases hm1 : st.fs.mkdir (filepathJoin mb ".nova") with
  | error e => rw [hm1] at h; simp at h
  | ok fs1 =>
    rw [hm1] at h
    obtain ⟨hfs1, -⟩ := FS.mkdir_inv hm1
    simp only [reportCreatedDir_fs] at h ⊢
    cases hm2 : fs1.mkdir (filepathJoin mb ".nova/Tasks") with
    | error e => rw [hm2] at h; simp at h
    | ok fs2 =>
      rw [hm2] at h
      obtain ⟨hfs2, -⟩ := FS.mkdir_inv hm2
      simp only [reportCreatedDir_fs] at h ⊢
      cases hm3 : fs2.writeFile (filepathJoin mb ".nova/Tasks/Go.json") novaTaskContents with
      | error e => rw [hm3] at h; simp at h
      | ok fs3 =>
        have hfs3 := FS.writeFile_inv hm3
        subst hfs3 hfs2 hfs1
        simp [reportCreatedFile_fs, List.append_assoc]

/-- Claim C4 amended: deploying a template set with directory entries (the
"nova" set) twice into the same destination fails on the second run with a
directory-already-exists error at the set's root-level directory. -/
theorem claim_C4_amended (mb : String) (q q2 : Bool) (st : St)
    (h : (copyEmbeddedFS assets "nova" mb q st).2 = .ok ()) :
    (copyEmbeddedFS assets "nova" mb q2 (copyEmbeddedFS assets "nova" mb q st).1).2 =
      .error ("mkdir " ++ filepathJoin mb ".nova" ++ ": file exists") := by
  have hfs := copyNova_fs_inv mb q st h
  rw [copyNova_unfold]
  simp only [walkCopy, FTree.path, stripN1, stripN2, stripN3, String.reduceEq,
    ite_false, ite_true]
  rw [hfs]
  have hex : FS.pathExists
      ⟨st.fs.dirs ++ [filepathJoin mb ".nova", filepathJoin mb ".nova/Tasks"],
       setAssoc st.fs.files (filepathJoin mb ".nova/Tasks/Go.json") novaTaskContents⟩
      (filepathJoin mb ".nova") := by
    simp [FS.pathExists, FS.isDir]
  rw [show FS.mkdir
      ⟨st.fs.dirs ++ [filepathJoin mb ".nova", filepathJoin mb ".nova/Tasks"],
       setAssoc st.fs.files (filepathJoin mb ".nova/Tasks/Go.json") novaTaskContents⟩
      (filepathJoin mb ".nova") =
      .error ("mkdir " ++ filepathJoin mb ".nova" ++ ": file exists") from by
    unfold FS.mkdir; rw [if_pos hex]]

/-- Witness for the amended C4: a concrete double deployment of the "nova"
set into an existing `bar` workspace fails the second time on `bar/.nova`. -/
theorem claim_C4_amended_witness :
    ((copyEmbeddedFS assets "nova" "bar" false ⟨⟨["bar"], []⟩, "", []⟩).2 = .ok ()) ∧
    (copyEmbeddedFS assets "nova" "bar" false
      (copyEmbeddedFS assets "nova" "bar" false ⟨⟨["bar"], []⟩, "", []⟩).1).2 =
        .error "mkdir bar/.nova: file exists" := by
  refine ⟨by decide, ?_⟩
  have h := claim_C4_amended "bar" false false ⟨⟨["bar"], []⟩, "", []⟩ (by decide)
  exact h.trans (by decide)


end Gmc

namespace Gmc

/-- A walk extends the directory list (it never removes directories). -/
theorem walkCopy_dirs (entries : List FTree) (srcRoot mb : String) (q : Bool) (st : St) :
    ∃ d, ((walkCopy entries srcRoot mb q st).1).fs.dirs = st.fs.dirs ++ d := by
  induction entries generalizing st with
  | nil => exact ⟨[], by simp [walkCopy]⟩
  | cons e rest ih =>
    cases e with
    | dir p =>
      by_cases hr : p = srcRoot
      · simpa [walkCopy, FTree.path, hr] using ih st
      · simp only [walkCopy, FTree.path, if_neg hr]
        cases hm : st.fs.mkdir (filepathJoin mb (stripPathRoot p srcRoot)) with
        | error err => exact ⟨[], by simp⟩
        | ok fs1 =>
          obtain ⟨hfs1, -⟩ := FS.mkdir_inv hm
          obtain ⟨d, hd⟩ := ih (reportCreatedDir q (filepathJoin mb (stripPathRoot p srcRoot))
            { st with fs := fs1, acts := st.acts ++ [.mkdirA (filepathJoin mb (stripPathRoot p srcRoot))] })
          exact ⟨filepathJoin mb (stripPathRoot p srcRoot) :: d,
            by simpa [hfs1, List.append_assoc] using hd⟩
    | file p c =>
      by_cases hr : p = srcRoot
      · simpa [walkCopy, FTree.path, hr] using ih st
      · simp only [walkCopy, FTree.path, if_neg hr]
        cases hm : st.fs.writeFile (filepathJoin mb (stripPathRoot p srcRoot)) c with
        | error err => exact ⟨[], by simp⟩
        | ok fs1 =>
          have hfs1 := FS.writeFile_inv hm
          obtain ⟨d, hd⟩ := ih (reportCreatedFile q (filepathJoin mb (stripPathRoot p srcRoot))
            { st with fs := fs1, acts := st.acts ++ [.writeA (filepathJoin mb (stripPathRoot p srcRoot)) c] })
          exact ⟨d, by simpa [hfs1] using hd⟩

end Gmc
namespace Gmc

/-- A single set deployment extends the directory list. -/
theorem copyEmbeddedFS_dirs (srcFS : List FTree) (src mb : String) (q : Bool) (st : St) :
    ∃ d, ((copyEmbeddedFS srcFS src mb q st).1).fs.dirs = st.fs.dirs ++ d := by
  unfold copyEmbeddedFS
  dsimp only
  split
  · exact ⟨[], by simp⟩
  · exact walkCopy_dirs _ _ _ _ _

/-- Deploying a list of sets extends the directory list. -/
theorem copyEmbeddedFSList_dirs (srcFS : List FTree) (ds : List String) (mb : String)
    (q : Bool) (st : St) :
    ∃ d, ((copyEmbeddedFSList srcFS ds mb q st).1).fs.dirs = st.fs.dirs ++ d := by
  induction ds generalizing st with
  | nil => exact ⟨[], by simp [copyEmbeddedFSList]⟩
  | cons x rest ih =>
    simp only [copyEmbeddedFSList]
    obtain ⟨d1, hd1⟩ := copyEmbeddedFS_dirs srcFS x mb q st
    cases hc : copyEmbeddedFS srcFS x mb q st with
    | mk st1 res =>
      rw [hc] at hd1
      cases res with
      | error e => exact ⟨d1, hd1⟩
      | ok u =>
        obtain ⟨d2, hd2⟩ := ih st1
        exact ⟨d1 ++ d2, by rw [hd2, hd1, List.append_assoc]⟩

/-- The repository initializer never touches the directory list (it only
writes files and runs external commands). -/
theorem setUpGitRepo_dirs (env : Env) (repo : gitRepo) (module mb : String) (q : Bool) (st : St) :
    ((setUpGitRepo env repo module mb q st).1).fs.dirs = st.fs.dirs := by
  unfold setUpGitRepo
  cases he : env.userEmail with
  | none => rfl
  | some e =>
    by_cases hte : trimSpace e = ""
    · simp [hte]
    · simp only [if_neg hte]
      cases hn : env.userName with
      | none => rfl
      | some n =>
        by_cases htn : trimSpace n = ""
        · simp [htn]
        · simp only [if_neg htn]
          by_cases hi : env.gitInitOk = false
          · simp [hi]
          · simp only [if_neg hi, flogf_fs]
            cases hw1 : st.fs.writeFile (filepathJoin mb gitignoreFileName) mb with
            | error er => simp
            | ok fs1 =>
              have hfs1 := FS.writeFile_inv hw1
              simp only [reportCreatedFile_fs]
              cases hw2 : fs1.writeFile (filepathJoin mb readmeFileName)
                  ("# " ++ mb ++ "\n\n") with
              | error er => simp [hfs1]
              | ok fs2 =>
                have hfs2 := FS.writeFile_inv hw2
                by_cases ha : env.gitAddOk = false
                · simp [ha, hfs1, hfs2]
                · simp only [if_neg ha]
                  by_cases hcm : env.gitCommitOk = false
                  · simp [hcm, hfs1, hfs2]
                  · simp only [if_neg hcm]
                    by_cases hnos : stringsReplaceFirst module '/' ':' = module
                    · simp [hnos, hfs1, hfs2]
                    · by_cases hra : env.gitRemoteAddOk = false
                      · simp [hnos, hra, hfs1, hfs2]
                      · simp [hnos, hra, hfs1, hfs2]

/-- Folding narration lines over the state leaves the filesystem alone. -/
theorem foldlFlogf_fs (q : Bool) (l : List String) (st : St) :
    (l.foldl (fun s step => flogf q ("- " ++ step ++ "\n") s) st).fs = st.fs := by
  induction l generalizing st with
  | nil => rfl
  | cons x rest ih => simp [List.foldl, ih]

/-- Folding narration lines over the state leaves the trace alone. -/
theorem foldlFlogf_acts (q : Bool) (l : List String) (st : St) :
    (l.foldl (fun s step => flogf q ("- " ++ step ++ "\n") s) st).acts = st.acts := by
  induction l generalizing st with
  | nil => rfl
  | cons x rest ih => simp [List.foldl, ih]

/-- The finishing step only emits narration: the filesystem is unchanged. -/
theorem createModuleFinish_fs (env : Env) (module mb : String) (extras : List String)
    (q : Bool) (ns : List String) (st : St) :
    ((createModuleFinish env module mb extras q ns st).1).fs = st.fs := by
  unfold createModuleFinish
  dsimp only
  have hl : ∀ s : String, (ns ++ [s]).length > 0 := by simp
  rw [if_pos (hl _), foldlFlogf_fs, flogf_fs, flogf_fs]

/-- The finishing step only emits narration: the trace is unchanged. -/
theorem createModuleFinish_acts (env : Env) (module mb : String) (extras : List String)
    (q : Bool) (ns : List String) (st : St) :
    ((createModuleFinish env module mb extras q ns st).1).acts = st.acts := by
  unfold createModuleFinish
  dsimp only
  have hl : ∀ s : String, (ns ++ [s]).length > 0 := by simp
  rw [if_pos (hl _), foldlFlogf_acts, flogf_acts, flogf_acts]

end Gmc
namespace Gmc

/-- Hypothesis-style variant of `copyEmbeddedFS_dirs`. -/
theorem copyEmbeddedFS_dirs2 {srcFS : List FTree} {src mb : String} {q : Bool} {st0 st1 : St}
    {res : Except String Unit} (h : copyEmbeddedFS srcFS src mb q st0 = (st1, res)) :
    ∃ d, st1.fs.dirs = st0.fs.dirs ++ d := by
  have hx := copyEmbeddedFS_dirs srcFS src mb q st0
  rw [h] at hx
  exact hx

/-- Hypothesis-style variant of `copyEmbeddedFSList_dirs`. -/
theorem copyEmbeddedFSList_dirs2 {srcFS : List FTree} {ds : List String} {mb : String}
    {q : Bool} {st0 st1 : St} {res : Except String Unit}
    (h : copyEmbeddedFSList srcFS ds mb q st0 = (st1, res)) :
    ∃ d, st1.fs.dirs = st0.fs.dirs ++ d := by
  have hx := copyEmbeddedFSList_dirs srcFS ds mb q st0
  rw [h] at hx
  exact hx

/-- Hypothesis-style variant of `setUpGitRepo_dirs`. -/
theorem setUpGitRepo_dirs2 {env : Env} {repo : gitRepo} {module mb : String} {q : Bool}
    {st0 st1 : St} {res : Except String (List String)}
    (h : setUpGitRepo env repo module mb q st0 = (st1, res)) :
    st1.fs.dirs = st0.fs.dirs := by
  have hx := setUpGitRepo_dirs env repo module mb q st0
  rw [h] at hx
  exact hx

/-- Claim C5: with the workspace directory already present (as after a first
successful creation), a second creation invocation fails at the
workspace-creation `os.Mkdir` — before module initialization, template
deployment or repository setup, leaving filesystem and trace untouched —
and, conversely, a successful creation leaves the workspace directory
present, so a repeated invocation does hit that failure. -/
theorem claim_C5 (module : String) :
    (∀ (env : Env) (repo : Option gitRepo) (extras : List String) (quiet : Bool)
      (out : String) (acts : List Act) (fs : FS),
      fs.pathExists (filepathBase module) →
      createModuleFull env module repo extras quiet ⟨fs, out, acts⟩ =
        (⟨fs, if quiet = true then out else out ++ ("Creating Go module: " ++ module ++ "\n"),
          acts⟩,
         .error ("mkdir " ++ filepathBase module ++ ": file exists"), [])) ∧
    (∀ (env : Env) (repo : Option gitRepo) (extras : List String) (quiet : Bool) (st : St),
      (createModuleFull env module repo extras quiet st).2.1 = .ok () →
      ((createModuleFull env module repo extras quiet st).1).fs.pathExists
        (filepathBase module)) := by
  constructor
  · intro env repo extras quiet out acts fs h
    unfold createModuleFull
    simp only [flogf_fs]
    rw [show FS.mkdir (⟨fs, out, acts⟩ : St).fs (filepathBase module) =
        .error ("mkdir " ++ filepathBase module ++ ": file exists") from by
      unfold FS.mkdir; rw [if_pos h]]
    cases quiet <;> simp [flogf]
  · intro env repo extras quiet st h
    unfold createModuleFull at h ⊢
    simp only [flogf_fs] at h ⊢
    split at h
    · simp at h
    · rename_i fs1 heq1
      obtain ⟨hfs1, -⟩ := FS.mkdir_inv heq1
      split at h
      · simp at h
      · rename_i hng
        split at h
        · simp at h
        · rename_i st1 u heq2
          obtain ⟨d1, hd1⟩ := copyEmbeddedFS_dirs2 heq2
          simp only [flogf_fs, reportCreatedDir_fs] at hd1
          split at h
          · simp at h
          · rename_i st2 u2 heq3
            obtain ⟨d2, hd2⟩ := copyEmbeddedFSList_dirs2 heq3
            cases repo with
            | some r =>
              dsimp only at h
              split at h
              · simp at h
              · rename_i st3 ns heq4
                rw [if_neg hng]
                simp only [heq2, heq3, heq4]
                rw [createModuleFinish_fs]
                have hd3 := setUpGitRepo_dirs2 heq4
                simp only [FS.pathExists, FS.isDir]
                left
                rw [hd3, hd2, hd1, hfs1]
                simp
            | none =>
              rw [if_neg hng]
              simp only [heq2, heq3]
              rw [createModuleFinish_fs]
              simp only [FS.pathExists, FS.isDir]
              left
              rw [hd2, hd1, hfs1]
              simp

end Gmc
namespace Gmc

/-- Witness for C5: recreating module `a1` in a directory that already has
`a1` fails at `mkdir` with everything untouched, and a successful first run
leaves `a1` present. -/
theorem claim_C5_witness :
    (createModuleFull envAllOk "a1" none [] false ⟨⟨["a1"], []⟩, "", []⟩ =
      (⟨⟨["a1"], []⟩, "Creating Go module: a1\n", []⟩,
       .error "mkdir a1: file exists", [])) ∧
    ((createModuleFull envAllOk "a1" none [] false ⟨FS.empty, "", []⟩).1).fs.pathExists
      (filepathBase "a1") := by
  constructor
  · have h := (claim_C5 "a1").1 envAllOk none [] false "" [] ⟨["a1"], []⟩ (by decide)
    exact h.trans (by decide)
  · exact (claim_C5 "a1").2 envAllOk none [] false ⟨FS.empty, "", []⟩ (by decide)

end Gmc

namespace Gmc

/-- A list is an initial segment of itself extended. -/
theorem listIsPre_self_append (l m : List Char) : listIsPre l (l ++ m) = true := by
  induction l with
  | nil => rfl
  | cons c t ih => simp [listIsPre, ih]

/-- Loud narration folds only append to the stream. -/
theorem foldlFlogf_out_false (l : List String) (st : St) :
    ∃ t, (l.foldl (fun s step => flogf false ("- " ++ step ++ "\n") s) st).out = st.out ++ t := by
  induction l generalizing st with
  | nil => exact ⟨"", (strAppendEmpty _).symm⟩
  | cons x rest ih =>
    obtain ⟨t, ht⟩ := ih (flogf false ("- " ++ x ++ "\n") st)
    exact ⟨("- " ++ x ++ "\n") ++ t, by rw [List.foldl_cons, ht]; simp [flogf, strAppendAssoc]⟩

/-- The finishing step always returns a non-empty next-steps list. -/
theorem createModuleFinish_ns_ne (env : Env) (module mb : String) (extras : List String)
    (q : Bool) (ns : List String) (st : St) :
    (createModuleFinish env module mb extras q ns st).2.2 ≠ [] := by
  unfold createModuleFinish
  dsimp only
  simp

/-- The last next step is always the "Start coding" suggestion. -/
theorem createModuleFinish_ns_last (env : Env) (module mb : String) (extras : List String)
    (q : Bool) (ns : List String) (st : St) :
    ∃ s, (createModuleFinish env module mb extras q ns st).2.2.getLast? = some s ∧
      listIsPre "Start coding: $ ".data s.data = true := by
  unfold createModuleFinish
  dsimp only
  refine ⟨_, by rw [List.getLast?_concat], ?_⟩
  rw [show ∀ e : String, "Start coding: $ " ++ e ++ " " ++ mb =
      "Start coding: $ " ++ (e ++ (" " ++ mb)) from fun e => by rw [strAppendAssoc, strAppendAssoc],
    strDataAppend]
  exact listIsPre_self_append _ _

/-- In loud mode the finishing step always emits the next-steps heading. -/
theorem createModuleFinish_out (env : Env) (module mb : String) (extras : List String)
    (ns : List String) (st : St) :
    ∃ p t, ((createModuleFinish env module mb extras false ns st).1).out =
      p ++ "\nNext steps:\n" ++ t := by
  unfold createModuleFinish
  dsimp only
  have hl : ∀ s : String, (ns ++ [s]).length > 0 := by simp
  rw [if_pos (hl _)]
  obtain ⟨t, ht⟩ := foldlFlogf_out_false _
    (flogf false "\nNext steps:\n" (flogf false ("\nFinished creating Go module: " ++ module ++ "\n") st))
  exact ⟨st.out ++ ("\nFinished creating Go module: " ++ module ++ "\n"), t, by rw [ht]; rfl⟩

end Gmc
namespace Gmc

/-- Claim C10: every successful creation run has a non-empty next-steps list
whose last entry is the unconditionally appended "Start coding" suggestion,
and every non-quiet successful run emits the "Next steps:" heading. -/
theorem claim_C10 (env : Env) (module : String) (repo : Option gitRepo)
    (extras : List String) (quiet : Bool) (st : St)
    (h : (createModuleFull env module repo extras quiet st).2.1 = .ok ()) :
    (createModuleFull env module repo extras quiet st).2.2 ≠ [] ∧
    (∃ s, (createModuleFull env module repo extras quiet st).2.2.getLast? = some s ∧
      listIsPre "Start coding: $ ".data s.data = true) ∧
    (quiet = false → ∃ p t, ((createModuleFull env module repo extras quiet st).1).out =
      p ++ "\nNext steps:\n" ++ t) := by
  unfold createModuleFull at h ⊢
  simp only [flogf_fs] at h ⊢
  split at h
  · simp at h
  · rename_i fs1 heq1
    split at h
    · simp at h
    · rename_i hng
      split at h
      · simp at h
      · rename_i st1 u heq2
        split at h
        · simp at h
        · rename_i st2 u2 heq3
          cases repo with
          | some r =>
            dsimp only at h
            split at h
            · simp at h
            · rename_i st3 ns heq4
              rw [if_neg hng]
              simp only [heq2, heq3, heq4]
              refine ⟨createModuleFinish_ns_ne _ _ _ _ _ _ _,
                createModuleFinish_ns_last _ _ _ _ _ _ _, ?_⟩
              intro hq
              subst hq
              exact createModuleFinish_out _ _ _ _ _ _
          | none =>
            rw [if_neg hng]
            simp only [heq2, heq3]
            refine ⟨createModuleFinish_ns_ne _ _ _ _ _ _ _,
              createModuleFinish_ns_last _ _ _ _ _ _ _, ?_⟩
            intro hq
            subst hq
            exact createModuleFinish_out _ _ _ _ _ _

/-- Witness for C10: a concrete successful quiet-less run whose next steps
end with the "Start coding" suggestion under the emitted heading. -/
theorem claim_C10_witness :
    ((createModuleFull envAllOk "a1" none [] false ⟨FS.empty, "", []⟩).2.1 = .ok ()) ∧
    (createModuleFull envAllOk "a1" none [] false ⟨FS.empty, "", []⟩).2.2 ≠ [] ∧
    (∃ s, (createModuleFull envAllOk "a1" none [] false ⟨FS.empty, "", []⟩).2.2.getLast? = some s ∧
      listIsPre "Start coding: $ ".data s.data = true) ∧
    ((false : Bool) = false → ∃ p t,
      ((createModuleFull envAllOk "a1" none [] false ⟨FS.empty, "", []⟩).1).out =
        p ++ "\nNext steps:\n" ++ t) := by
  refine ⟨by decide, ?_⟩
  exact claim_C10 envAllOk "a1" none [] false ⟨FS.empty, "", []⟩ (by decide)

end Gmc

namespace Gmc

/-- Strip of the embedded default-set file path. -/
theorem stripD1 : stripPathRoot "assets/default/main.go" "assets/default" = "main.go" := by decide

/-- Master lemma: successful deployment of the "default" template set. -/
theorem deployDefault_ok (mb : String) (q : Bool) (st : St)
    (h1 : ¬ st.fs.isDir (filepathJoin mb "main.go"))
    (h2 : parentDir (filepathJoin mb "main.go") = "" ∨
      st.fs.isDir (parentDir (filepathJoin mb "main.go"))) :
    copyEmbeddedFS assets assetsDefaultDir mb q st =
      (⟨⟨st.fs.dirs, setAssoc st.fs.files (filepathJoin mb "main.go") mainGoContents⟩,
        st.out ++ (if q = true then "" else
          "- Created file     : " ++ filepathJoin mb "main.go" ++ "\n"),
        st.acts ++ [.writeA (filepathJoin mb "main.go") mainGoContents]⟩, .ok ()) := by
  rw [show assetsDefaultDir = "default" from rfl, copyDefault_unfold]
  simp only [walkCopy, FTree.path, String.reduceEq, ite_false, ite_true, stripD1]
  rw [FS.writeFile_ok st.fs _ _ h1 h2]
  cases q <;>
    simp [reportCreatedFile, reportCreatedAtPath, padRight_file, flogf, walkCopy,
      strAppendEmpty, strAppendAssoc]

/-- Master lemma: successful deployment of the "nova" template set. -/
theorem deployNova_ok (mb : String) (q : Bool) (st : St)
    (h1 : ¬ st.fs.pathExists (filepathJoin mb ".nova"))
    (h2 : parentDir (filepathJoin mb ".nova") = "" ∨
      st.fs.isDir (parentDir (filepathJoin mb ".nova")))
    (h3 : ¬ st.fs.pathExists (filepathJoin mb ".nova/Tasks"))
    (h3b : filepathJoin mb ".nova/Tasks" ≠ filepathJoin mb ".nova")
    (h4 : parentDir (filepathJoin mb ".nova/Tasks") = filepathJoin mb ".nova" ∨
      parentDir (filepathJoin mb ".nova/Tasks") = "" ∨
      st.fs.isDir (parentDir (filepathJoin mb ".nova/Tasks")))
    (h5 : ¬ st.fs.isDir (filepathJoin mb ".nova/Tasks/Go.json"))
    (h5b : filepathJoin mb ".nova/Tasks/Go.json" ≠ filepathJoin mb ".nova")
    (h5c : filepathJoin mb ".nova/Tasks/Go.json" ≠ filepathJoin mb ".nova/Tasks")
    (h6 : parentDir (filepathJoin mb ".nova/Tasks/Go.json") = filepathJoin mb ".nova/Tasks" ∨
      parentDir (filepathJoin mb ".nova/Tasks/Go.json") = "" ∨
      st.fs.isDir (parentDir (filepathJoin mb ".nova/Tasks/Go.json"))) :
    copyEmbeddedFS assets "nova" mb q st =
      (⟨⟨st.fs.dirs ++ [filepathJoin mb ".nova", filepathJoin mb ".nova/Tasks"],
          setAssoc st.fs.files (filepathJoin mb ".nova/Tasks/Go.json") novaTaskContents⟩,
        st.out ++ (if q = true then "" else
          ("- Created directory: " ++ filepathJoin mb ".nova" ++ "\n") ++
          ("- Created directory: " ++ filepathJoin mb ".nova/Tasks" ++ "\n") ++
          ("- Created file     : " ++ filepathJoin mb ".nova/Tasks/Go.json" ++ "\n")),
        st.acts ++ [.mkdirA (filepathJoin mb ".nova"), .mkdirA (filepathJoin mb ".nova/Tasks"),
          .writeA (filepathJoin mb ".nova/Tasks/Go.json") novaTaskContents]⟩, .ok ()) := by
  rw [copyNova_unfold]
  simp only [walkCopy, FTree.path, String.reduceEq, ite_false, ite_true, stripN1, stripN2, stripN3]
  rw [FS.mkdir_ok st.fs _ h1 h2]
  simp only [reportCreatedDir_fs]
  rw [FS.mkdir_ok ⟨st.fs.dirs ++ [filepathJoin mb ".nova"], st.fs.files⟩ _
    (by
      simp only [FS.pathExists, FS.isDir, FS.isFile, List.mem_append, List.mem_singleton] at h1 h3 ⊢
      tauto)
    (by
      simp only [FS.isDir, List.mem_append, List.mem_singleton] at h4 ⊢
      tauto)]
  simp only [reportCreatedDir_fs]
  rw [FS.writeFile_ok ⟨(st.fs.dirs ++ [filepathJoin mb ".nova"]) ++ [filepathJoin mb ".nova/Tasks"],
      st.fs.files⟩ _ _
    (by
      simp only [FS.isDir, List.mem_append, List.mem_singleton] at h5 ⊢
      tauto)
    (by
      simp only [FS.isDir, List.mem_append, List.mem_singleton] at h6 ⊢
      tauto)]
  cases q <;>
    simp [reportCreatedFile, reportCreatedDir, reportCreatedAtPath, padRight_file,
      padRight_directory, flogf, walkCopy, strAppendEmpty, strAppendAssoc, List.append_assoc]

end Gmc


namespace Gmc

/-- Environment hypotheses for a fully successful run: both identity
queries return non-blank values and every external command exits 0. -/
abbrev EnvOk (env : Env) (e n : String) : Prop :=
  env.userEmail = some e ∧ trimSpace e ≠ "" ∧ env.userName = some n ∧ trimSpace n ≠ "" ∧
  env.gitInitOk = true ∧ env.gitAddOk = true ∧ env.gitCommitOk = true ∧
  env.goModInitOk = true

/-- Filesystem-shape hypotheses making a creation run succeed: the
workspace path is free and creatable, and each file the run writes under it
is neither an existing directory nor parentless.  All are satisfied by any
ordinary working directory (see the witnesses). -/
abbrev WorkspaceFree (fs0 : FS) (mb : String) : Prop :=
  ¬ fs0.pathExists mb ∧ (parentDir mb = "" ∨ fs0.isDir (parentDir mb)) ∧
  ¬ fs0.isDir (filepathJoin mb "main.go") ∧ filepathJoin mb "main.go" ≠ mb ∧
  (parentDir (filepathJoin mb "main.go") = mb ∨ parentDir (filepathJoin mb "main.go") = "" ∨
    fs0.isDir (parentDir (filepathJoin mb "main.go"))) ∧
  ¬ fs0.isDir (filepathJoin mb gitignoreFileName) ∧ filepathJoin mb gitignoreFileName ≠ mb ∧
  (parentDir (filepathJoin mb gitignoreFileName) = mb ∨
    parentDir (filepathJoin mb gitignoreFileName) = "" ∨
    fs0.isDir (parentDir (filepathJoin mb gitignoreFileName))) ∧
  ¬ fs0.isDir (filepathJoin mb readmeFileName) ∧ filepathJoin mb readmeFileName ≠ mb ∧
  (parentDir (filepathJoin mb readmeFileName) = mb ∨
    parentDir (filepathJoin mb readmeFileName) = "" ∨
    fs0.isDir (parentDir (filepathJoin mb readmeFileName)))

end Gmc

namespace Gmc

/-- Quiet created-directory reports vanish. -/
@[simp] theorem reportCreatedDir_true (p : String) (st : St) :
    reportCreatedDir true p st = st := rfl

/-- Quiet created-file reports vanish. -/
@[simp] theorem reportCreatedFile_true (p : String) (st : St) :
    reportCreatedFile true p st = st := rfl

/-- Loud created-directory reports append one line. -/
theorem reportCreatedDir_false (p : String) (st : St) :
    reportCreatedDir false p st = { st with out := st.out ++ ("- Created directory: " ++ p ++ "\n") } := by
  simp [reportCreatedDir, reportCreatedAtPath, padRight_directory, flogf]

/-- Loud created-file reports append one line. -/
theorem reportCreatedFile_false (p : String) (st : St) :
    reportCreatedFile false p st = { st with out := st.out ++ ("- Created file     : " ++ p ++ "\n") } := by
  simp [reportCreatedFile, reportCreatedAtPath, padRight_file, flogf]

/-- Evaluation of a git-enabled creation run (no optional sets) up to the
repository-initialization call: directory creation, module-metadata
initialization and the default deployment succeed, handing `setUpGitRepo`
the populated workspace state. -/
theorem cm_git_step (env : Env) (b : Option String) (module : String) (quiet : Bool)
    (fs0 : FS) (out0 : String) (acts0 : List Act)
    (hgo : env.goModInitOk = true)
    (hA1 : ¬ fs0.pathExists (filepathBase module))
    (hA2 : parentDir (filepathBase module) = "" ∨ fs0.isDir (parentDir (filepathBase module)))
    (hB1 : ¬ fs0.isDir (filepathJoin (filepathBase module) "main.go"))
    (hB1b : filepathJoin (filepathBase module) "main.go" ≠ filepathBase module)
    (hB2 : parentDir (filepathJoin (filepathBase module) "main.go") = filepathBase module ∨
      parentDir (filepathJoin (filepathBase module) "main.go") = "" ∨
      fs0.isDir (parentDir (filepathJoin (filepathBase module) "main.go"))) :
    createModuleFull env module (some ⟨b⟩) [] quiet ⟨fs0, out0, acts0⟩ =
      (match setUpGitRepo env ⟨b⟩ module (filepathBase module) quiet
          ⟨⟨fs0.dirs ++ [filepathBase module],
            setAssoc fs0.files (filepathJoin (filepathBase module) "main.go") mainGoContents⟩,
           (if quiet = true then out0 else
             out0 ++ ("Creating Go module: " ++ module ++ "\n") ++
             ("- Created directory: " ++ filepathBase module ++ "\n") ++
             "- Initialized Go module\n" ++
             ("- Created file     : " ++ filepathJoin (filepathBase module) "main.go" ++ "\n")),
           acts0 ++ [.mkdirA (filepathBase module),
             .runA ["go", "mod", "init", module] (filepathBase module),
             .writeA (filepathJoin (filepathBase module) "main.go") mainGoContents]⟩ with
       | (st3, .error e) => (st3, .error ("Failed to create as Git repository: " ++ e), [])
       | (st3, .ok ns) => createModuleFinish env module (filepathBase module) [] quiet ns st3) := by
  have hgo2 : ¬ (env.goModInitOk = false) := by
    intro hx
    rw [hgo] at hx
    exact Bool.noConfusion hx
  have hB1x : ¬ FS.isDir ⟨fs0.dirs ++ [filepathBase module], fs0.files⟩
      (filepathJoin (filepathBase module) "main.go") := by
    simp only [FS.isDir, List.mem_append, List.mem_singleton] at hB1 ⊢
    tauto
  have hB2x : parentDir (filepathJoin (filepathBase module) "main.go") = "" ∨
      FS.isDir ⟨fs0.dirs ++ [filepathBase module], fs0.files⟩
        (parentDir (filepathJoin (filepathBase module) "main.go")) := by
    simp only [FS.isDir, List.mem_append, List.mem_singleton] at hB2 ⊢
    tauto
  unfold createModuleFull
  cases quiet with
  | true =>
    simp only [flogf_true]
    rw [FS.mkdir_ok fs0 (filepathBase module) hA1 hA2]
    simp only [reportCreatedDir_true]
    rw [if_neg hgo2]
    rw [deployDefault_ok (filepathBase module) true
      ⟨⟨fs0.dirs ++ [filepathBase module], fs0.files⟩, out0,
        acts0 ++ [Act.mkdirA (filepathBase module)] ++
          [Act.runA ["go", "mod", "init", module] (filepathBase module)]⟩ hB1x hB2x]
    simp only [copyEmbeddedFSList]
    simp [strAppendEmpty, List.append_assoc]
  | false =>
    simp only [flogf_false]
    rw [FS.mkdir_ok fs0 (filepathBase module) hA1 hA2]
    simp only [reportCreatedDir_false]
    rw [if_neg hgo2]
    rw [deployDefault_ok (filepathBase module) false
      ⟨⟨fs0.dirs ++ [filepathBase module], fs0.files⟩,
        out0 ++ ("Creating Go module: " ++ module ++ "\n") ++
          ("- Created directory: " ++ filepathBase module ++ "\n") ++
          "- Initialized Go module\n",
        acts0 ++ [Act.mkdirA (filepathBase module)] ++
          [Act.runA ["go", "mod", "init", module] (filepathBase module)]⟩ hB1x hB2x]
    simp only [copyEmbeddedFSList]
    simp [strAppendEmpty, strAppendAssoc, List.append_assoc]

end Gmc
namespace Gmc

/-- Master lemma: `setUpGitRepo` on a separator-bearing identifier when the
`git remote add` invocation exits non-zero: the run fails with the
staging-failure wording (the label reused by the code at cli.go 387). -/
theorem setUpGitRepo_remoteFail (env : Env) (repo : gitRepo) (module moduleBase : String)
    (quiet : Bool) (st : St) (e n : String)
    (he : env.userEmail = some e) (he2 : trimSpace e ≠ "")
    (hn : env.userName = some n) (hn2 : trimSpace n ≠ "")
    (hi : env.gitInitOk = true) (ha : env.gitAddOk = true) (hc : env.gitCommitOk = true)
    (hra : env.gitRemoteAddOk = false)
    (hslash : stringsReplaceFirst module '/' ':' ≠ module)
    (hg1 : ¬ st.fs.isDir (filepathJoin moduleBase gitignoreFileName))
    (hg2 : parentDir (filepathJoin moduleBase gitignoreFileName) = "" ∨
      st.fs.isDir (parentDir (filepathJoin moduleBase gitignoreFileName)))
    (hm1 : ¬ st.fs.isDir (filepathJoin moduleBase readmeFileName))
    (hm2 : parentDir (filepathJoin moduleBase readmeFileName) = "" ∨
      st.fs.isDir (parentDir (filepathJoin moduleBase readmeFileName))) :
    setUpGitRepo env repo module moduleBase quiet st =
      (⟨⟨st.fs.dirs,
          setAssoc (setAssoc st.fs.files (filepathJoin moduleBase gitignoreFileName) moduleBase)
            (filepathJoin moduleBase readmeFileName) ("# " ++ moduleBase ++ "\n\n")⟩,
        st.out ++ (if quiet = true then "" else
          "- Initialized Git repository\n" ++
          ("- Created file     : " ++ filepathJoin moduleBase gitignoreFileName ++ "\n") ++
          ("- Created file     : " ++ filepathJoin moduleBase readmeFileName ++ "\n") ++
          "- Committed all files to Git repository\n"),
        st.acts ++ [
          .runA ["git", "config", "--global", "user.email"] moduleBase,
          .runA ["git", "config", "--global", "user.name"] moduleBase,
          .runA (gitInitCmd repo) moduleBase,
          .writeA (filepathJoin moduleBase gitignoreFileName) moduleBase,
          .writeA (filepathJoin moduleBase readmeFileName) ("# " ++ moduleBase ++ "\n\n"),
          .runA ["git", "add", "."] moduleBase,
          .runA ["git", "commit", "-m", "Initial commit"] moduleBase,
          .runA ["git", "remote", "add", "origin", gitUrlOf module] moduleBase]⟩,
       .error "Failed to stage files for Git commit") := by
  have hgw := FS.writeFile_ok st.fs (filepathJoin moduleBase gitignoreFileName) moduleBase hg1 hg2
  have hrw := FS.writeFile_ok ⟨st.fs.dirs, setAssoc st.fs.files (filepathJoin moduleBase gitignoreFileName) moduleBase⟩
      (filepathJoin moduleBase readmeFileName) ("# " ++ moduleBase ++ "\n\n")
      (by simpa [FS.isDir] using hm1)
      (by simpa [FS.isDir] using hm2)
  cases quiet with
  | true =>
    simp only [setUpGitRepo, he, hn, hi, ha, hc, hra, flogf_true, if_neg he2, if_neg hn2,
      reportCreatedFile, reportCreatedAtPath, padRight_file]
    rw [hgw]
    simp only [flogf_true]
    rw [hrw]
    simp only [flogf_true, if_neg hslash, gitUrlOf]
    simp [List.append_assoc, strAppendEmpty]
  | false =>
    simp only [setUpGitRepo, he, hn, hi, ha, hc, hra, flogf_false, if_neg he2, if_neg hn2,
      reportCreatedFile, reportCreatedAtPath, padRight_file]
    rw [hgw]
    simp only [flogf_false]
    rw [hrw]
    simp only [flogf_false, if_neg hslash, gitUrlOf]
    simp [List.append_assoc, strAppendAssoc]

/-- The finishing step always succeeds and returns the incoming next steps
followed by the "Start coding" suggestion built from the editor choice. -/
theorem createModuleFinish_parts (env : Env) (module mb : String) (extras : List String)
    (q : Bool) (ns : List String) (st : St) :
    (createModuleFinish env module mb extras q ns st).2.1 = .ok () ∧
    (createModuleFinish env module mb extras q ns st).2.2 =
      ns ++ ["Start coding: $ " ++
        (if extras.contains "nova" then "nova"
         else if env.editorEnvVar ≠ "" then env.editorEnvVar else "$EDITOR") ++ " " ++ mb] := by
  unfold createModuleFinish
  dsimp only
  exact ⟨rfl, rfl⟩

/-- Any narration fold only appends to the stream. -/
theorem foldlFlogf_out_any (q : Bool) (l : List String) (st : St) :
    ∃ t, (l.foldl (fun s step => flogf q ("- " ++ step ++ "\n") s) st).out = st.out ++ t := by
  induction l generalizing st with
  | nil => exact ⟨"", (strAppendEmpty _).symm⟩
  | cons x rest ih =>
    obtain ⟨t, ht⟩ := ih (flogf q ("- " ++ x ++ "\n") st)
    cases q with
    | true => exact ⟨t, by rw [List.foldl_cons, ht]; rfl⟩
    | false =>
      exact ⟨("- " ++ x ++ "\n") ++ t, by rw [List.foldl_cons, ht]; simp [flogf, strAppendAssoc]⟩

/-- The finishing step only appends to the narration stream. -/
theorem createModuleFinish_out_suffix (env : Env) (module mb : String) (extras : List String)
    (q : Bool) (ns : List String) (st : St) :
    ∃ t, ((createModuleFinish env module mb extras q ns st).1).out = st.out ++ t := by
  unfold createModuleFinish
  dsimp only
  have hl : ∀ s : String, (ns ++ [s]).length > 0 := by simp
  rw [if_pos (hl _)]
  obtain ⟨t, ht⟩ := foldlFlogf_out_any q _
    (flogf q "\nNext steps:\n" (flogf q ("\nFinished creating Go module: " ++ module ++ "\n") st))
  cases q with
  | true => exact ⟨t, by rw [ht]; rfl⟩
  | false =>
    refine ⟨("\nFinished creating Go module: " ++ module ++ "\n") ++ ("\nNext steps:\n" ++ t), ?_⟩
    rw [ht]
    simp [flogf, strAppendAssoc]
    rw [show ("\n" : String) ++ ("\nNext steps:\n" ++ t) = "\n\nNext steps:\n" ++ t from by
      rw [← strAppendAssoc]
      rfl]

end Gmc

namespace Gmc

set_option maxHeartbeats 1000000 in
/-- Claim C2 counterexample: for the separator-free identifier `foo`,
creation succeeds, yet the remote-dependent "Create remote Git repository"
next step IS present in the final next-steps list — the claim asserts it is
absent. -/
theorem claim_C2_counterexample :
    ('/' ∉ "foo".data) ∧
    (createModuleFull envAllOk "foo" (some ⟨some "main"⟩) [] false ⟨FS.empty, "", []⟩).2.1 =
      .ok () ∧
    "Create remote Git repository" ∈
      (createModuleFull envAllOk "foo" (some ⟨some "main"⟩) [] false ⟨FS.empty, "", []⟩).2.2 := by
  decide

set_option maxHeartbeats 1000000 in
/-- Claim C2 amended: on a separator-free identifier, creation with
repository initialization still succeeds (init, ignore-file, readme and
commit all occur), no remote is configured (no `git remote add` is ever
invoked), and a note is emitted instead of an error; however the
remote-dependent next steps are still present — the remote-creation step
merely carries no URL. -/
theorem claim_C2_amended (env : Env) (b : Option String) (module : String) (quiet : Bool)
    (fs0 : FS) (out0 : String) (acts0 : List Act) (e n : String)
    (henv : EnvOk env e n)
    (hnos : '/' ∉ module.data)
    (hfs : WorkspaceFree fs0 (filepathBase module)) :
    (createModuleFull env module (some ⟨b⟩) [] quiet ⟨fs0, out0, acts0⟩).2.1 = .ok () ∧
    (createModuleFull env module (some ⟨b⟩) [] quiet ⟨fs0, out0, acts0⟩).2.2 =
      ["Create remote Git repository",
       "Push to remote Git repository: $ git push -u origin " ++
         (if trimSpace env.headRef ≠ "" then trimSpace env.headRef
          else "$(git branch --show-current)"),
       "Start coding: $ " ++
         (if env.editorEnvVar ≠ "" then env.editorEnvVar else "$EDITOR") ++ " " ++
         filepathBase module] ∧
    (createModuleFull env module (some ⟨b⟩) [] quiet ⟨fs0, out0, acts0⟩).1.acts =
      acts0 ++ [
        .mkdirA (filepathBase module),
        .runA ["go", "mod", "init", module] (filepathBase module),
        .writeA (filepathJoin (filepathBase module) "main.go") mainGoContents,
        .runA ["git", "config", "--global", "user.email"] (filepathBase module),
        .runA ["git", "config", "--global", "user.name"] (filepathBase module),
        .runA (gitInitCmd ⟨b⟩) (filepathBase module),
        .writeA (filepathJoin (filepathBase module) gitignoreFileName) (filepathBase module),
        .writeA (filepathJoin (filepathBase module) readmeFileName)
          ("# " ++ filepathBase module ++ "\n\n"),
        .runA ["git", "add", "."] (filepathBase module),
        .runA ["git", "commit", "-m", "Initial commit"] (filepathBase module),
        .runA ["git", "symbolic-ref", "--short", "HEAD"] (filepathBase module)] ∧
    (quiet = false → ∃ p t, (createModuleFull env module (some ⟨b⟩) [] quiet
        ⟨fs0, out0, acts0⟩).1.out =
      p ++ "- NOTE: Unable to add remote for Git repository\n" ++ t) := by
  obtain ⟨he, he2, hn, hn2, hi, ha, hc, hgo⟩ := henv
  obtain ⟨hA1, hA2, hB1, hB1b, hB2, hF1, hF1b, hF2, hG1, hG1b, hG2⟩ := hfs
  rw [cm_git_step env b module quiet fs0 out0 acts0 hgo hA1 hA2 hB1 hB1b hB2]
  have hg1x : ¬ FS.isDir ⟨fs0.dirs ++ [filepathBase module],
      setAssoc fs0.files (filepathJoin (filepathBase module) "main.go") mainGoContents⟩
      (filepathJoin (filepathBase module) gitignoreFileName) := by
    simp only [FS.isDir, List.mem_append, List.mem_singleton] at hF1 ⊢
    exact fun hx => hx.elim (fun h => hF1 h) (fun h => hF1b h)
  have hg2x : parentDir (filepathJoin (filepathBase module) gitignoreFileName) = "" ∨
      FS.isDir ⟨fs0.dirs ++ [filepathBase module],
        setAssoc fs0.files (filepathJoin (filepathBase module) "main.go") mainGoContents⟩
        (parentDir (filepathJoin (filepathBase module) gitignoreFileName)) := by
    simp only [FS.isDir, List.mem_append, List.mem_singleton] at hF2 ⊢
    exact hF2.elim (fun h => Or.inr (Or.inr h)) (fun h => h.elim Or.inl (fun h2 => Or.inr (Or.inl h2)))
  have hr1x : ¬ FS.isDir ⟨fs0.dirs ++ [filepathBase module],
      setAssoc fs0.files (filepathJoin (filepathBase module) "main.go") mainGoContents⟩
      (filepathJoin (filepathBase module) readmeFileName) := by
    simp only [FS.isDir, List.mem_append, List.mem_singleton] at hG1 ⊢
    exact fun hx => hx.elim (fun h => hG1 h) (fun h => hG1b h)
  have hr2x : parentDir (filepathJoin (filepathBase module) readmeFileName) = "" ∨
      FS.isDir ⟨fs0.dirs ++ [filepathBase module],
        setAssoc fs0.files (filepathJoin (filepathBase module) "main.go") mainGoContents⟩
        (parentDir (filepathJoin (filepathBase module) readmeFileName)) := by
    simp only [FS.isDir, List.mem_append, List.mem_singleton] at hG2 ⊢
    exact hG2.elim (fun h => Or.inr (Or.inr h)) (fun h => h.elim Or.inl (fun h2 => Or.inr (Or.inl h2)))
  rw [setUpGitRepo_ok_noslash env ⟨b⟩ module (filepathBase module) quiet
    ⟨⟨fs0.dirs ++ [filepathBase module],
      setAssoc fs0.files (filepathJoin (filepathBase module) "main.go") mainGoContents⟩,
     (if quiet = true then out0 else
       out0 ++ ("Creating Go module: " ++ module ++ "\n") ++
       ("- Created directory: " ++ filepathBase module ++ "\n") ++
       "- Initialized Go module\n" ++
       ("- Created file     : " ++ filepathJoin (filepathBase module) "main.go" ++ "\n")),
     acts0 ++ [Act.mkdirA (filepathBase module),
       Act.runA ["go", "mod", "init", module] (filepathBase module),
       Act.writeA (filepathJoin (filepathBase module) "main.go") mainGoContents]⟩
    e n he he2 hn hn2 hi ha hc (stringsReplaceFirst_eq hnos) hg1x hg2x hr1x hr2x]
  dsimp only
  refine ⟨(createModuleFinish_parts _ _ _ _ _ _ _).1, ?_, ?_, ?_⟩
  · rw [(createModuleFinish_parts _ _ _ _ _ _ _).2]
    simp [List.contains]
  · rw [createModuleFinish_acts]
    simp [List.append_assoc]
  · intro hq
    subst hq
    obtain ⟨t, ht⟩ := createModuleFinish_out_suffix env module (filepathBase module) [] false _ _
    rw [ht]
    refine ⟨out0 ++ ("Creating Go module: " ++ module ++ "\n") ++
       ("- Created directory: " ++ filepathBase module ++ "\n") ++
       "- Initialized Go module\n" ++
       ("- Created file     : " ++ filepathJoin (filepathBase module) "main.go" ++ "\n") ++
       "- Initialized Git repository\n" ++
       ("- Created file     : " ++ filepathJoin (filepathBase module) gitignoreFileName ++ "\n") ++
       ("- Created file     : " ++ filepathJoin (filepathBase module) readmeFileName ++ "\n") ++
       "- Committed all files to Git repository\n", t, ?_⟩
    simp [strAppendAssoc]
    simp [← strAppendAssoc]

end Gmc
namespace Gmc

/-- Witness for the amended C2: creating `foo` with git yields the plain
remote-creation step, the push step and the start-coding step. -/
theorem claim_C2_amended_witness :
    (createModuleFull envAllOk "foo" (some ⟨some "main"⟩) [] false ⟨FS.empty, "", []⟩).2.2 =
      ["Create remote Git repository",
       "Push to remote Git repository: $ git push -u origin main",
       "Start coding: $ vim foo"] := by
  have h := claim_C2_amended envAllOk (some "main") "foo" false FS.empty "" []
    "dev@example.com\n" "Dev Eloper\n" (by decide) (by decide) (by decide)
  exact h.2.1.trans (by decide)

/-- Claim C9: when `git remote add` exits non-zero for a separator-bearing
identifier, creation fails fatally — not downgraded to the soft note — and
the surfaced message is the staging-failure wording reused at cli.go 387. -/
theorem claim_C9 (env : Env) (b : Option String) (module : String) (quiet : Bool)
    (fs0 : FS) (out0 : String) (acts0 : List Act) (e n : String)
    (henv : EnvOk env e n)
    (hra : env.gitRemoteAddOk = false)
    (hslash : '/' ∈ module.data)
    (hfs : WorkspaceFree fs0 (filepathBase module)) :
    (createModuleFull env module (some ⟨b⟩) [] quiet ⟨fs0, out0, acts0⟩).2.1 =
      .error "Failed to create as Git repository: Failed to stage files for Git commit" ∧
    (createModuleFull env module (some ⟨b⟩) [] quiet ⟨fs0, out0, acts0⟩).2.2 = [] ∧
    (createModuleFull env module (some ⟨b⟩) [] quiet ⟨fs0, out0, acts0⟩).1.acts =
      acts0 ++ [
        .mkdirA (filepathBase module),
        .runA ["go", "mod", "init", module] (filepathBase module),
        .writeA (filepathJoin (filepathBase module) "main.go") mainGoContents,
        .runA ["git", "config", "--global", "user.email"] (filepathBase module),
        .runA ["git", "config", "--global", "user.name"] (filepathBase module),
        .runA (gitInitCmd ⟨b⟩) (filepathBase module),
        .writeA (filepathJoin (filepathBase module) gitignoreFileName) (filepathBase module),
        .writeA (filepathJoin (filepathBase module) readmeFileName)
          ("# " ++ filepathBase module ++ "\n\n"),
        .runA ["git", "add", "."] (filepathBase module),
        .runA ["git", "commit", "-m", "Initial commit"] (filepathBase module),
        .runA ["git", "remote", "add", "origin", gitUrlOf module] (filepathBase module)] := by
  obtain ⟨he, he2, hn, hn2, hi, ha, hc, hgo⟩ := henv
  obtain ⟨hA1, hA2, hB1, hB1b, hB2, hF1, hF1b, hF2, hG1, hG1b, hG2⟩ := hfs
  rw [cm_git_step env b module quiet fs0 out0 acts0 hgo hA1 hA2 hB1 hB1b hB2]
  have hg1x : ¬ FS.isDir ⟨fs0.dirs ++ [filepathBase module],
      setAssoc fs0.files (filepathJoin (filepathBase module) "main.go") mainGoContents⟩
      (filepathJoin (filepathBase module) gitignoreFileName) := by
    simp only [FS.isDir, List.mem_append, List.mem_singleton] at hF1 ⊢
    exact fun hx => hx.elim (fun h => hF1 h) (fun h => hF1b h)
  have hg2x : parentDir (filepathJoin (filepathBase module) gitignoreFileName) = "" ∨
      FS.isDir ⟨fs0.dirs ++ [filepathBase module],
        setAssoc fs0.files (filepathJoin (filepathBase module) "main.go") mainGoContents⟩
        (parentDir (filepathJoin (filepathBase module) gitignoreFileName)) := by
    simp only [FS.isDir, List.mem_append, List.mem_singleton] at hF2 ⊢
    exact hF2.elim (fun h => Or.inr (Or.inr h)) (fun h => h.elim Or.inl (fun h2 => Or.inr (Or.inl h2)))
  have hr1x : ¬ FS.isDir ⟨fs0.dirs ++ [filepathBase module],
      setAssoc fs0.files (filepathJoin (filepathBase module) "main.go") mainGoContents⟩
      (filepathJoin (filepathBase module) readmeFileName) := by
    simp only [FS.isDir, List.mem_append, List.mem_singleton] at hG1 ⊢
    exact fun hx => hx.elim (fun h => hG1 h) (fun h => hG1b h)
  have hr2x : parentDir (filepathJoin (filepathBase module) readmeFileName) = "" ∨
      FS.isDir ⟨fs0.dirs ++ [filepathBase module],
        setAssoc fs0.files (filepathJoin (filepathBase module) "main.go") mainGoContents⟩
        (parentDir (filepathJoin (filepathBase module) readmeFileName)) := by
    simp only [FS.isDir, List.mem_append, List.mem_singleton] at hG2 ⊢
    exact hG2.elim (fun h => Or.inr (Or.inr h)) (fun h => h.elim Or.inl (fun h2 => Or.inr (Or.inl h2)))
  rw [setUpGitRepo_remoteFail env ⟨b⟩ module (filepathBase module) quiet
    ⟨⟨fs0.dirs ++ [filepathBase module],
      setAssoc fs0.files (filepathJoin (filepathBase module) "main.go") mainGoContents⟩,
     (if quiet = true then out0 else
       out0 ++ ("Creating Go module: " ++ module ++ "\n") ++
       ("- Created directory: " ++ filepathBase module ++ "\n") ++
       "- Initialized Go module\n" ++
       ("- Created file     : " ++ filepathJoin (filepathBase module) "main.go" ++ "\n")),
     acts0 ++ [Act.mkdirA (filepathBase module),
       Act.runA ["go", "mod", "init", module] (filepathBase module),
       Act.writeA (filepathJoin (filepathBase module) "main.go") mainGoContents]⟩
    e n he he2 hn hn2 hi ha hc hra (stringsReplaceFirst_ne hslash) hg1x hg2x hr1x hr2x]
  dsimp only
  refine ⟨rfl, rfl, ?_⟩
  simp [List.append_assoc]

/-- Witness for C9: remote-add failure on `github.com/foo/bar` aborts
creation with the staging-failure wording. -/
theorem claim_C9_witness :
    (createModuleFull
      { envAllOk with gitRemoteAddOk := false } "github.com/foo/bar"
      (some ⟨some "main"⟩) [] false ⟨FS.empty, "", []⟩).2.1 =
      .error "Failed to create as Git repository: Failed to stage files for Git commit" := by
  have h := claim_C9 { envAllOk with gitRemoteAddOk := false } (some "main") "github.com/foo/bar"
    false FS.empty "" [] "dev@example.com\n" "Dev Eloper\n" (by decide) (by decide) (by decide)
    (by decide)
  exact h.1

end Gmc

namespace Gmc

/-- Left cancellation for string append. -/
theorem strAppend_left_cancel {a x y : String} (h : a ++ x = a ++ y) : x = y := by
  have h2 : (a ++ x).data = (a ++ y).data := congrArg String.data h
  rw [strDataAppend, strDataAppend] at h2
  have h3 := List.append_cancel_left h2
  cases x
  cases y
  exact congrArg String.mk h3

/-- Joining distinct relative names under the same base yields distinct
paths. -/
theorem filepathJoin_right_inj {a x y : String} (h : filepathJoin a x = filepathJoin a y) :
    x = y := by
  unfold filepathJoin at h
  by_cases h1 : a = "" ∨ a = "."
  · simpa [h1] using h
  · rw [if_neg h1, if_neg h1] at h
    by_cases h2 : a = "/"
    · rw [if_pos h2, if_pos h2] at h
      exact strAppend_left_cancel h
    · rw [if_neg h2, if_neg h2] at h
      rw [strAppendAssoc, strAppendAssoc] at h
      exact strAppend_left_cancel (strAppend_left_cancel h)

/-- Predicate: an external invocation of `git commit`. -/
def isGitCommitRun : Act → Bool
  | .runA ("git" :: "commit" :: _) _ => true
  | _ => false

/-- The git-init command line is never a commit. -/
theorem isGitCommitRun_gitInit (b : Option String) (d : String) :
    isGitCommitRun (Act.runA (gitInitCmd ⟨b⟩) d) = false := by
  cases b <;> simp [gitInitCmd, isGitCommitRun]

/-- Master helper: a fully successful git-enabled creation run (no optional
sets), covering both remote outcomes: the trace appends the workspace
creation, metadata init, the default deployment, the git sequence, and —
exactly when a separator is present — the remote-add invocation. -/
theorem cm_git_ok_acts (env : Env) (b : Option String) (module : String) (quiet : Bool)
    (fs0 : FS) (out0 : String) (acts0 : List Act) (e n : String)
    (henv : EnvOk env e n)
    (hra : env.gitRemoteAddOk = true)
    (hfs : WorkspaceFree fs0 (filepathBase module)) :
    (createModuleFull env module (some ⟨b⟩) [] quiet ⟨fs0, out0, acts0⟩).2.1 = .ok () ∧
    (createModuleFull env module (some ⟨b⟩) [] quiet ⟨fs0, out0, acts0⟩).1.acts =
      acts0 ++ [
        .mkdirA (filepathBase module),
        .runA ["go", "mod", "init", module] (filepathBase module),
        .writeA (filepathJoin (filepathBase module) "main.go") mainGoContents,
        .runA ["git", "config", "--global", "user.email"] (filepathBase module),
        .runA ["git", "config", "--global", "user.name"] (filepathBase module),
        .runA (gitInitCmd ⟨b⟩) (filepathBase module),
        .writeA (filepathJoin (filepathBase module) gitignoreFileName) (filepathBase module),
        .writeA (filepathJoin (filepathBase module) readmeFileName)
          ("# " ++ filepathBase module ++ "\n\n"),
        .runA ["git", "add", "."] (filepathBase module),
        .runA ["git", "commit", "-m", "Initial commit"] (filepathBase module)] ++
      (if stringsReplaceFirst module '/' ':' = module then []
       else [.runA ["git", "remote", "add", "origin", gitUrlOf module] (filepathBase module)]) ++
      [.runA ["git", "symbolic-ref", "--short", "HEAD"] (filepathBase module)] := by
  obtain ⟨he, he2, hn, hn2, hi, ha, hc, hgo⟩ := henv
  obtain ⟨hA1, hA2, hB1, hB1b, hB2, hF1, hF1b, hF2, hG1, hG1b, hG2⟩ := hfs
  rw [cm_git_step env b module quiet fs0 out0 acts0 hgo hA1 hA2 hB1 hB1b hB2]
  have hg1x : ¬ FS.isDir ⟨fs0.dirs ++ [filepathBase module],
      setAssoc fs0.files (filepathJoin (filepathBase module) "main.go") mainGoContents⟩
      (filepathJoin (filepathBase module) gitignoreFileName) := by
    simp only [FS.isDir, List.mem_append, List.mem_singleton] at hF1 ⊢
    exact fun hx => hx.elim (fun h => hF1 h) (fun h => hF1b h)
  have hg2x : parentDir (filepathJoin (filepathBase module) gitignoreFileName) = "" ∨
      FS.isDir ⟨fs0.dirs ++ [filepathBase module],
        setAssoc fs0.files (filepathJoin (filepathBase module) "main.go") mainGoContents⟩
        (parentDir (filepathJoin (filepathBase module) gitignoreFileName)) := by
    simp only [FS.isDir, List.mem_append, List.mem_singleton] at hF2 ⊢
    exact hF2.elim (fun h => Or.inr (Or.inr h)) (fun h => h.elim Or.inl (fun h2 => Or.inr (Or.inl h2)))
  have hr1x : ¬ FS.isDir ⟨fs0.dirs ++ [filepathBase module],
      setAssoc fs0.files (filepathJoin (filepathBase module) "main.go") mainGoContents⟩
      (filepathJoin (filepathBase module) readmeFileName) := by
    simp only [FS.isDir, List.mem_append, List.mem_singleton] at hG1 ⊢
    exact fun hx => hx.elim (fun h => hG1 h) (fun h => hG1b h)
  have hr2x : parentDir (filepathJoin (filepathBase module) readmeFileName) = "" ∨
      FS.isDir ⟨fs0.dirs ++ [filepathBase module],
        setAssoc fs0.files (filepathJoin (filepathBase module) "main.go") mainGoContents⟩
        (parentDir (filepathJoin (filepathBase module) readmeFileName)) := by
    simp only [FS.isDir, List.mem_append, List.mem_singleton] at hG2 ⊢
    exact hG2.elim (fun h => Or.inr (Or.inr h)) (fun h => h.elim Or.inl (fun h2 => Or.inr (Or.inl h2)))
  by_cases hnos : stringsReplaceFirst module '/' ':' = module
  · rw [setUpGitRepo_ok_noslash env ⟨b⟩ module (filepathBase module) quiet
      ⟨⟨fs0.dirs ++ [filepathBase module],
        setAssoc fs0.files (filepathJoin (filepathBase module) "main.go") mainGoContents⟩,
       (if quiet = true then out0 else
         out0 ++ ("Creating Go module: " ++ module ++ "\n") ++
         ("- Created directory: " ++ filepathBase module ++ "\n") ++
         "- Initialized Go module\n" ++
         ("- Created file     : " ++ filepathJoin (filepathBase module) "main.go" ++ "\n")),
       acts0 ++ [Act.mkdirA (filepathBase module),
         Act.runA ["go", "mod", "init", module] (filepathBase module),
         Act.writeA (filepathJoin (filepathBase module) "main.go") mainGoContents]⟩
      e n he he2 hn hn2 hi ha hc hnos hg1x hg2x hr1x hr2x]
    dsimp only
    refine ⟨(createModuleFinish_parts _ _ _ _ _ _ _).1, ?_⟩
    rw [createModuleFinish_acts]
    rw [if_pos hnos]
    simp [List.append_assoc]
  · rw [setUpGitRepo_ok_slash env ⟨b⟩ module (filepathBase module) quiet
      ⟨⟨fs0.dirs ++ [filepathBase module],
        setAssoc fs0.files (filepathJoin (filepathBase module) "main.go") mainGoContents⟩,
       (if quiet = true then out0 else
         out0 ++ ("Creating Go module: " ++ module ++ "\n") ++
         ("- Created directory: " ++ filepathBase module ++ "\n") ++
         "- Initialized Go module\n" ++
         ("- Created file     : " ++ filepathJoin (filepathBase module) "main.go" ++ "\n")),
       acts0 ++ [Act.mkdirA (filepathBase module),
         Act.runA ["go", "mod", "init", module] (filepathBase module),
         Act.writeA (filepathJoin (filepathBase module) "main.go") mainGoContents]⟩
      e n he he2 hn hn2 hi ha hc hra hnos hg1x hg2x hr1x hr2x]
    dsimp only
    refine ⟨(createModuleFinish_parts _ _ _ _ _ _ _).1, ?_⟩
    rw [createModuleFinish_acts]
    rw [if_neg hnos]
    simp [List.append_assoc]

end Gmc
namespace Gmc

/-- First line of a string (up to the first newline). -/
def firstLine (s : String) : String := String.mk (s.data.takeWhile (fun c => c != '\n'))

/-- Taking up to a newline from newline-free content stops at the suffix. -/
theorem takeWhile_no_newline (m : List Char) (hm : ∀ c ∈ m, c ≠ '\n') :
    List.takeWhile (fun c => c != '\n') (m ++ '\n' :: ['\n']) = m := by
  induction m with
  | nil => rfl
  | cons c t ih =>
    have hc : (c != '\n') = true := by
      simpa using hm c (List.mem_cons_self c t)
    simp only [List.cons_append, List.takeWhile_cons, hc, if_true]
    rw [ih (fun x hx => hm x (List.mem_cons_of_mem c hx))]

/-- The generated readme's first line is the heading `# <base>` whenever the
base name contains no newline. -/
theorem firstLine_readme (bse : String) (h : '\n' ∉ bse.data) :
    firstLine ("# " ++ bse ++ "\n\n") = "# " ++ bse := by
  cases bse with
  | mk l =>
    unfold firstLine
    rw [strDataAppend, strDataAppend]
    show String.mk (List.takeWhile _ (('#' :: ' ' :: l) ++ '\n' :: ['\n'])) = _
    rw [takeWhile_no_newline ('#' :: ' ' :: l) (by
      intro c hc
      rcases List.mem_cons.mp hc with rfl | hc2
      · decide
      · rcases List.mem_cons.mp hc2 with rfl | hc3
        · decide
        · exact fun he => h (he ▸ hc3))]
    rfl

/-- Claim C6: a git-enabled creation writes exactly one ignore-file whose
content is literally the base name, exactly one readme whose first line is
`# <base>`, and issues exactly one `git commit`. -/
theorem claim_C6 (env : Env) (b : Option String) (module : String) (quiet : Bool)
    (fs0 : FS) (out0 : String) (acts0 : List Act) (e n : String)
    (henv : EnvOk env e n)
    (hra : env.gitRemoteAddOk = true)
    (hfs : WorkspaceFree fs0 (filepathBase module))
    (hnl : '\n' ∉ (filepathBase module).data) :
    ∃ tail,
      (createModuleFull env module (some ⟨b⟩) [] quiet ⟨fs0, out0, acts0⟩).2.1 = .ok () ∧
      (createModuleFull env module (some ⟨b⟩) [] quiet ⟨fs0, out0, acts0⟩).1.acts =
        acts0 ++ tail ∧
      tail.countP (fun a => a = Act.writeA
        (filepathJoin (filepathBase module) gitignoreFileName) (filepathBase module)) = 1 ∧
      tail.countP (fun a => a = Act.writeA
        (filepathJoin (filepathBase module) readmeFileName)
        ("# " ++ filepathBase module ++ "\n\n")) = 1 ∧
      tail.countP isGitCommitRun = 1 ∧
      firstLine ("# " ++ filepathBase module ++ "\n\n") = "# " ++ filepathBase module := by
  obtain ⟨hok, hacts⟩ := cm_git_ok_acts env b module quiet fs0 out0 acts0 e n henv hra hfs
  have d1 : filepathJoin (filepathBase module) "main.go" ≠
      filepathJoin (filepathBase module) gitignoreFileName := fun h => by
    simpa [gitignoreFileName] using filepathJoin_right_inj h
  have d2 : filepathJoin (filepathBase module) "main.go" ≠
      filepathJoin (filepathBase module) readmeFileName := fun h => by
    simpa [readmeFileName] using filepathJoin_right_inj h
  have d3 : filepathJoin (filepathBase module) gitignoreFileName ≠
      filepathJoin (filepathBase module) readmeFileName := fun h => by
    simpa [gitignoreFileName, readmeFileName] using filepathJoin_right_inj h
  refine ⟨[
      Act.mkdirA (filepathBase module),
      Act.runA ["go", "mod", "init", module] (filepathBase module),
      Act.writeA (filepathJoin (filepathBase module) "main.go") mainGoContents,
      Act.runA ["git", "config", "--global", "user.email"] (filepathBase module),
      Act.runA ["git", "config", "--global", "user.name"] (filepathBase module),
      Act.runA (gitInitCmd ⟨b⟩) (filepathBase module),
      Act.writeA (filepathJoin (filepathBase module) gitignoreFileName) (filepathBase module),
      Act.writeA (filepathJoin (filepathBase module) readmeFileName)
        ("# " ++ filepathBase module ++ "\n\n"),
      Act.runA ["git", "add", "."] (filepathBase module),
      Act.runA ["git", "commit", "-m", "Initial commit"] (filepathBase module)] ++
    (if stringsReplaceFirst module '/' ':' = module then []
     else [Act.runA ["git", "remote", "add", "origin", gitUrlOf module] (filepathBase module)]) ++
    [Act.runA ["git", "symbolic-ref", "--short", "HEAD"] (filepathBase module)],
    hok, by rw [hacts]; simp [List.append_assoc], ?_, ?_, ?_, firstLine_readme _ hnl⟩
  · simp only [List.countP_append, List.countP_cons, List.countP_nil]
    rw [show (if stringsReplaceFirst module '/' ':' = module then ([] : List Act)
        else [Act.runA ["git", "remote", "add", "origin", gitUrlOf module]
          (filepathBase module)]).countP (fun a => a = Act.writeA
        (filepathJoin (filepathBase module) gitignoreFileName) (filepathBase module)) = 0 from by
      split <;> simp]
    simp [d1, Ne.symm d3]
  · simp only [List.countP_append, List.countP_cons, List.countP_nil]
    rw [show (if stringsReplaceFirst module '/' ':' = module then ([] : List Act)
        else [Act.runA ["git", "remote", "add", "origin", gitUrlOf module]
          (filepathBase module)]).countP (fun a => a = Act.writeA
        (filepathJoin (filepathBase module) readmeFileName)
        ("# " ++ filepathBase module ++ "\n\n")) = 0 from by
      split <;> simp]
    simp [d2, d3]
  · simp only [List.countP_append, List.countP_cons, List.countP_nil]
    rw [show (if stringsReplaceFirst module '/' ':' = module then ([] : List Act)
        else [Act.runA ["git", "remote", "add", "origin", gitUrlOf module]
          (filepathBase module)]).countP isGitCommitRun = 0 from by
      split <;> simp [isGitCommitRun]]
    cases b <;> simp [isGitCommitRun, gitInitCmd]

end Gmc
namespace Gmc

/-- Witness for C6: the example scenario `github.com/foo/bar` with git. -/
theorem claim_C6_witness :
    ∃ tail,
      (createModuleFull envAllOk "github.com/foo/bar" (some ⟨some "main"⟩) [] false
        ⟨FS.empty, "", []⟩).2.1 = .ok () ∧
      (createModuleFull envAllOk "github.com/foo/bar" (some ⟨some "main"⟩) [] false
        ⟨FS.empty, "", []⟩).1.acts = [] ++ tail ∧
      tail.countP (fun a => a = Act.writeA
        (filepathJoin (filepathBase "github.com/foo/bar") gitignoreFileName)
        (filepathBase "github.com/foo/bar")) = 1 ∧
      tail.countP (fun a => a = Act.writeA
        (filepathJoin (filepathBase "github.com/foo/bar") readmeFileName)
        ("# " ++ filepathBase "github.com/foo/bar" ++ "\n\n")) = 1 ∧
      tail.countP isGitCommitRun = 1 ∧
      firstLine ("# " ++ filepathBase "github.com/foo/bar" ++ "\n\n") =
        "# " ++ filepathBase "github.com/foo/bar" :=
  claim_C6 envAllOk (some "main") "github.com/foo/bar" false FS.empty "" []
    "dev@example.com\n" "Dev Eloper\n" (by decide) rfl (by decide) (by decide)

end Gmc
namespace Gmc

/-- Keys of an updated association list: the written path joins the keys. -/
theorem setAssoc_keys (l : List (String × String)) (p c x : String) :
    x ∈ (setAssoc l p c).map Prod.fst ↔ x ∈ l.map Prod.fst ∨ x = p := by
  induction l with
  | nil => simp [setAssoc]
  | cons hd tl ih =>
    by_cases hq : hd.1 = p
    · cases hd with
      | mk q d =>
        simp only at hq
        subst hq
        simp [setAssoc, or_assoc]
        tauto
    · cases hd with
      | mk q d =>
        simp only at hq
        simp [setAssoc, hq, ih, or_assoc]

/-- Filesystem-shape hypotheses for deploying the "nova" set after the
default one: the `.nova` tree is absent and its parents line up. -/
abbrev NovaFree (fs0 : FS) (mb : String) : Prop :=
  ¬ fs0.pathExists (filepathJoin mb ".nova") ∧
  filepathJoin mb ".nova" ≠ mb ∧
  filepathJoin mb ".nova" ≠ filepathJoin mb "main.go" ∧
  (parentDir (filepathJoin mb ".nova") = mb ∨ parentDir (filepathJoin mb ".nova") = "" ∨
    fs0.isDir (parentDir (filepathJoin mb ".nova"))) ∧
  ¬ fs0.pathExists (filepathJoin mb ".nova/Tasks") ∧
  filepathJoin mb ".nova/Tasks" ≠ mb ∧
  filepathJoin mb ".nova/Tasks" ≠ filepathJoin mb "main.go" ∧
  filepathJoin mb ".nova/Tasks" ≠ filepathJoin mb ".nova" ∧
  (parentDir (filepathJoin mb ".nova/Tasks") = filepathJoin mb ".nova" ∨
    parentDir (filepathJoin mb ".nova/Tasks") = mb ∨
    parentDir (filepathJoin mb ".nova/Tasks") = "" ∨
    fs0.isDir (parentDir (filepathJoin mb ".nova/Tasks"))) ∧
  ¬ fs0.isDir (filepathJoin mb ".nova/Tasks/Go.json") ∧
  filepathJoin mb ".nova/Tasks/Go.json" ≠ mb ∧
  filepathJoin mb ".nova/Tasks/Go.json" ≠ filepathJoin mb ".nova" ∧
  filepathJoin mb ".nova/Tasks/Go.json" ≠ filepathJoin mb ".nova/Tasks" ∧
  (parentDir (filepathJoin mb ".nova/Tasks/Go.json") = filepathJoin mb ".nova/Tasks" ∨
    parentDir (filepathJoin mb ".nova/Tasks/Go.json") = mb ∨
    parentDir (filepathJoin mb ".nova/Tasks/Go.json") = "" ∨
    fs0.isDir (parentDir (filepathJoin mb ".nova/Tasks/Go.json")))

/-- Failing deployment of the "default" set: the destination `main.go` path
is an existing directory, so `os.WriteFile` aborts the walk. -/
theorem deployDefault_fail (mb : String) (q : Bool) (st : St)
    (h : st.fs.isDir (filepathJoin mb "main.go")) :
    copyEmbeddedFS assets assetsDefaultDir mb q st =
      (st, .error ("open " ++ filepathJoin mb "main.go" ++ ": is a directory")) := by
  rw [show assetsDefaultDir = "default" from rfl, copyDefault_unfold]
  simp only [walkCopy, FTree.path, String.reduceEq, ite_false, ite_true, stripD1]
  rw [show st.fs.writeFile (filepathJoin mb "main.go") mainGoContents =
      .error ("open " ++ filepathJoin mb "main.go" ++ ": is a directory") from by
    unfold FS.writeFile
    rw [if_pos h]]

/-- Evaluation of a no-git creation run up to the optional-set loop: module
directory, `go mod init` and the default set succeed, leaving the loop over
`extraDirs` on the explicit intermediate state. -/
theorem cm_extras_step (env : Env) (module : String) (extras : List String) (quiet : Bool)
    (fs0 : FS) (out0 : String) (acts0 : List Act)
    (hgo : env.goModInitOk = true)
    (hA1 : ¬ fs0.pathExists (filepathBase module))
    (hA2 : parentDir (filepathBase module) = "" ∨ fs0.isDir (parentDir (filepathBase module)))
    (hB1 : ¬ fs0.isDir (filepathJoin (filepathBase module) "main.go"))
    (hB1b : filepathJoin (filepathBase module) "main.go" ≠ filepathBase module)
    (hB2 : parentDir (filepathJoin (filepathBase module) "main.go") = filepathBase module ∨
      parentDir (filepathJoin (filepathBase module) "main.go") = "" ∨
      fs0.isDir (parentDir (filepathJoin (filepathBase module) "main.go"))) :
    createModuleFull env module none extras quiet ⟨fs0, out0, acts0⟩ =
      (match copyEmbeddedFSList assets extras (filepathBase module) quiet
          ⟨⟨fs0.dirs ++ [filepathBase module],
            setAssoc fs0.files (filepathJoin (filepathBase module) "main.go") mainGoContents⟩,
           (if quiet = true then out0 else
             out0 ++ ("Creating Go module: " ++ module ++ "\n") ++
             ("- Created directory: " ++ filepathBase module ++ "\n") ++
             "- Initialized Go module\n" ++
             ("- Created file     : " ++ filepathJoin (filepathBase module) "main.go" ++ "\n")),
           acts0 ++ [Act.mkdirA (filepathBase module),
             Act.runA ["go", "mod", "init", module] (filepathBase module),
             Act.writeA (filepathJoin (filepathBase module) "main.go") mainGoContents]⟩ with
       | (st2, .error e) => (st2, .error e, [])
       | (st2, .ok _) =>
         createModuleFinish env module (filepathBase module) extras quiet [] st2) := by
  have hgo2 : ¬ (env.goModInitOk = false) := by
    intro hx
    rw [hgo] at hx
    exact Bool.noConfusion hx
  have hB1x : ¬ FS.isDir ⟨fs0.dirs ++ [filepathBase module], fs0.files⟩
      (filepathJoin (filepathBase module) "main.go") := by
    simp only [FS.isDir, List.mem_append, List.mem_singleton] at hB1 ⊢
    tauto
  have hB2x : parentDir (filepathJoin (filepathBase module) "main.go") = "" ∨
      FS.isDir ⟨fs0.dirs ++ [filepathBase module], fs0.files⟩
        (parentDir (filepathJoin (filepathBase module) "main.go")) := by
    simp only [FS.isDir, List.mem_append, List.mem_singleton] at hB2 ⊢
    tauto
  unfold createModuleFull
  cases quiet with
  | true =>
    simp only [flogf_true]
    rw [FS.mkdir_ok fs0 (filepathBase module) hA1 hA2]
    simp only [reportCreatedDir_true]
    rw [if_neg hgo2]
    rw [deployDefault_ok (filepathBase module) true
      ⟨⟨fs0.dirs ++ [filepathBase module], fs0.files⟩, out0,
        acts0 ++ [Act.mkdirA (filepathBase module)] ++
          [Act.runA ["go", "mod", "init", module] (filepathBase module)]⟩ hB1x hB2x]
    simp [strAppendEmpty, List.append_assoc]
  | false =>
    simp only [flogf_false]
    rw [FS.mkdir_ok fs0 (filepathBase module) hA1 hA2]
    simp only [reportCreatedDir_false]
    rw [if_neg hgo2]
    rw [deployDefault_ok (filepathBase module) false
      ⟨⟨fs0.dirs ++ [filepathBase module], fs0.files⟩,
        out0 ++ ("Creating Go module: " ++ module ++ "\n") ++
          ("- Created directory: " ++ filepathBase module ++ "\n") ++
          "- Initialized Go module\n",
        acts0 ++ [Act.mkdirA (filepathBase module)] ++
          [Act.runA ["go", "mod", "init", module] (filepathBase module)]⟩ hB1x hB2x]
    simp [strAppendEmpty, strAppendAssoc, List.append_assoc]

/-- A failing default-set deployment aborts the run before any optional set
is attempted: the result is the write error and the trace stops at the
module-metadata step, whatever `extras` asks for. -/
theorem cm_abort (env : Env) (module : String) (extras : List String) (quiet : Bool)
    (fs0 : FS) (out0 : String) (acts0 : List Act)
    (hgo : env.goModInitOk = true)
    (hA1 : ¬ fs0.pathExists (filepathBase module))
    (hA2 : parentDir (filepathBase module) = "" ∨ fs0.isDir (parentDir (filepathBase module)))
    (hfail : fs0.isDir (filepathJoin (filepathBase module) "main.go")) :
    (createModuleFull env module none extras quiet ⟨fs0, out0, acts0⟩).2.1 =
      .error ("open " ++ filepathJoin (filepathBase module) "main.go" ++ ": is a directory") ∧
    (createModuleFull env module none extras quiet ⟨fs0, out0, acts0⟩).1.acts =
      acts0 ++ [Act.mkdirA (filepathBase module),
        Act.runA ["go", "mod", "init", module] (filepathBase module)] := by
  have hgo2 : ¬ (env.goModInitOk = false) := by
    intro hx
    rw [hgo] at hx
    exact Bool.noConfusion hx
  have hfailx : FS.isDir ⟨fs0.dirs ++ [filepathBase module], fs0.files⟩
      (filepathJoin (filepathBase module) "main.go") := by
    simp only [FS.isDir, List.mem_append, List.mem_singleton] at hfail ⊢
    exact Or.inl hfail
  unfold createModuleFull
  cases quiet with
  | true =>
    simp only [flogf_true]
    rw [FS.mkdir_ok fs0 (filepathBase module) hA1 hA2]
    simp only [reportCreatedDir_true]
    rw [if_neg hgo2]
    rw [deployDefault_fail (filepathBase module) true
      ⟨⟨fs0.dirs ++ [filepathBase module], fs0.files⟩, out0,
        acts0 ++ [Act.mkdirA (filepathBase module)] ++
          [Act.runA ["go", "mod", "init", module] (filepathBase module)]⟩ hfailx]
    simp [List.append_assoc]
  | false =>
    simp only [flogf_false]
    rw [FS.mkdir_ok fs0 (filepathBase module) hA1 hA2]
    simp only [reportCreatedDir_false]
    rw [if_neg hgo2]
    rw [deployDefault_fail (filepathBase module) false
      ⟨⟨fs0.dirs ++ [filepathBase module], fs0.files⟩,
        out0 ++ ("Creating Go module: " ++ module ++ "\n") ++
          ("- Created directory: " ++ filepathBase module ++ "\n") ++
          "- Initialized Go module\n",
        acts0 ++ [Act.mkdirA (filepathBase module)] ++
          [Act.runA ["go", "mod", "init", module] (filepathBase module)]⟩ hfailx]
    simp [List.append_assoc]

set_option maxHeartbeats 1000000 in
/-- C8: in every creation run, the default template set is deployed exactly
once, after module-metadata initialization (`go mod init`) and before any
optional template set; optional sets are deployed only when requested; a
deployment failure aborts the run before the next set is attempted. -/
theorem claim_C8 (env : Env) (module : String) (quiet nova : Bool) (fs0 : FS)
    (out0 : String) (acts0 : List Act)
    (hgo : env.goModInitOk = true)
    (hA1 : ¬ fs0.pathExists (filepathBase module))
    (hA2 : parentDir (filepathBase module) = "" ∨ fs0.isDir (parentDir (filepathBase module))) :
    ((¬ fs0.isDir (filepathJoin (filepathBase module) "main.go") ∧
      filepathJoin (filepathBase module) "main.go" ≠ filepathBase module ∧
      (parentDir (filepathJoin (filepathBase module) "main.go") = filepathBase module ∨
        parentDir (filepathJoin (filepathBase module) "main.go") = "" ∨
        fs0.isDir (parentDir (filepathJoin (filepathBase module) "main.go"))) ∧
      (nova = true → NovaFree fs0 (filepathBase module))) →
      (createModuleFull env module none (if nova then ["nova"] else []) quiet
        ⟨fs0, out0, acts0⟩).2.1 = .ok () ∧
      (createModuleFull env module none (if nova then ["nova"] else []) quiet
        ⟨fs0, out0, acts0⟩).1.acts =
        acts0 ++ ([Act.mkdirA (filepathBase module),
          Act.runA ["go", "mod", "init", module] (filepathBase module),
          Act.writeA (filepathJoin (filepathBase module) "main.go") mainGoContents] ++
          (if nova then [Act.mkdirA (filepathJoin (filepathBase module) ".nova"),
            Act.mkdirA (filepathJoin (filepathBase module) ".nova/Tasks"),
            Act.writeA (filepathJoin (filepathBase module) ".nova/Tasks/Go.json")
              novaTaskContents] else [])) ∧
      (([Act.mkdirA (filepathBase module),
          Act.runA ["go", "mod", "init", module] (filepathBase module),
          Act.writeA (filepathJoin (filepathBase module) "main.go") mainGoContents] ++
          (if nova then [Act.mkdirA (filepathJoin (filepathBase module) ".nova"),
            Act.mkdirA (filepathJoin (filepathBase module) ".nova/Tasks"),
            Act.writeA (filepathJoin (filepathBase module) ".nova/Tasks/Go.json")
              novaTaskContents] else [])).countP
        (fun a => a = Act.writeA (filepathJoin (filepathBase module) "main.go")
          mainGoContents)) = 1) ∧
    (fs0.isDir (filepathJoin (filepathBase module) "main.go") →
      (createModuleFull env module none (if nova then ["nova"] else []) quiet
        ⟨fs0, out0, acts0⟩).2.1 =
        .error ("open " ++ filepathJoin (filepathBase module) "main.go" ++ ": is a directory") ∧
      (createModuleFull env module none (if nova then ["nova"] else []) quiet
        ⟨fs0, out0, acts0⟩).1.acts =
        acts0 ++ [Act.mkdirA (filepathBase module),
          Act.runA ["go", "mod", "init", module] (filepathBase module)]) := by
  constructor
  · rintro ⟨hB1, hB1b, hB2, hN⟩
    have dgo : filepathJoin (filepathBase module) ".nova/Tasks/Go.json" ≠
        filepathJoin (filepathBase module) "main.go" := fun h => by
      simpa using filepathJoin_right_inj h
    rw [cm_extras_step env module (if nova then ["nova"] else []) quiet fs0 out0 acts0
      hgo hA1 hA2 hB1 hB1b hB2]
    cases nova with
    | false =>
      simp only [Bool.false_eq_true, if_false, copyEmbeddedFSList]
      refine ⟨(createModuleFinish_parts _ _ _ _ _ _ _).1, ?_, ?_⟩
      · rw [createModuleFinish_acts]
        simp [List.append_assoc]
      · simp
    | true =>
      obtain ⟨n1, n2, n3, n4, n5, n6, n7, n8, n9, n10, n11, n12, n13, n14⟩ := hN rfl
      have h1x : ¬ FS.pathExists ⟨fs0.dirs ++ [filepathBase module],
          setAssoc fs0.files (filepathJoin (filepathBase module) "main.go") mainGoContents⟩
          (filepathJoin (filepathBase module) ".nova") := by
        simp only [FS.pathExists, FS.isDir, FS.isFile, List.mem_append, List.mem_singleton,
          setAssoc_keys, not_or] at n1 ⊢
        exact ⟨⟨n1.1, n2⟩, n1.2, n3⟩
      have h2x : parentDir (filepathJoin (filepathBase module) ".nova") = "" ∨
          FS.isDir ⟨fs0.dirs ++ [filepathBase module],
            setAssoc fs0.files (filepathJoin (filepathBase module) "main.go") mainGoContents⟩
            (parentDir (filepathJoin (filepathBase module) ".nova")) := by
        simp only [FS.isDir, List.mem_append, List.mem_singleton]
        rcases n4 with h | h | h
        · exact Or.inr (Or.inr h)
        · exact Or.inl h
        · exact Or.inr (Or.inl h)
      have h3x : ¬ FS.pathExists ⟨fs0.dirs ++ [filepathBase module],
          setAssoc fs0.files (filepathJoin (filepathBase module) "main.go") mainGoContents⟩
          (filepathJoin (filepathBase module) ".nova/Tasks") := by
        simp only [FS.pathExists, FS.isDir, FS.isFile, List.mem_append, List.mem_singleton,
          setAssoc_keys, not_or] at n5 ⊢
        exact ⟨⟨n5.1, n6⟩, n5.2, n7⟩
      have h4x : parentDir (filepathJoin (filepathBase module) ".nova/Tasks") =
            filepathJoin (filepathBase module) ".nova" ∨
          parentDir (filepathJoin (filepathBase module) ".nova/Tasks") = "" ∨
          FS.isDir ⟨fs0.dirs ++ [filepathBase module],
            setAssoc fs0.files (filepathJoin (filepathBase module) "main.go") mainGoContents⟩
            (parentDir (filepathJoin (filepathBase module) ".nova/Tasks")) := by
        simp only [FS.isDir, List.mem_append, List.mem_singleton]
        rcases n9 with h | h | h | h
        · exact Or.inl h
        · exact Or.inr (Or.inr (Or.inr h))
        · exact Or.inr (Or.inl h)
        · exact Or.inr (Or.inr (Or.inl h))
      have h5x : ¬ FS.isDir ⟨fs0.dirs ++ [filepathBase module],
          setAssoc fs0.files (filepathJoin (filepathBase module) "main.go") mainGoContents⟩
          (filepathJoin (filepathBase module) ".nova/Tasks/Go.json") := by
        simp only [FS.isDir, List.mem_append, List.mem_singleton, not_or] at n10 ⊢
        exact ⟨n10, n11⟩
      have h6x : parentDir (filepathJoin (filepathBase module) ".nova/Tasks/Go.json") =
            filepathJoin (filepathBase module) ".nova/Tasks" ∨
          parentDir (filepathJoin (filepathBase module) ".nova/Tasks/Go.json") = "" ∨
          FS.isDir ⟨fs0.dirs ++ [filepathBase module],
            setAssoc fs0.files (filepathJoin (filepathBase module) "main.go") mainGoContents⟩
            (parentDir (filepathJoin (filepathBase module) ".nova/Tasks/Go.json")) := by
        simp only [FS.isDir, List.mem_append, List.mem_singleton]
        rcases n14 with h | h | h | h
        · exact Or.inl h
        · exact Or.inr (Or.inr (Or.inr h))
        · exact Or.inr (Or.inl h)
        · exact Or.inr (Or.inr (Or.inl h))
      simp only [reduceIte, copyEmbeddedFSList]
      rw [deployNova_ok (filepathBase module) quiet
        ⟨⟨fs0.dirs ++ [filepathBase module],
          setAssoc fs0.files (filepathJoin (filepathBase module) "main.go") mainGoContents⟩,
         (if quiet = true then out0 else
           out0 ++ ("Creating Go module: " ++ module ++ "\n") ++
           ("- Created directory: " ++ filepathBase module ++ "\n") ++
           "- Initialized Go module\n" ++
           ("- Created file     : " ++ filepathJoin (filepathBase module) "main.go" ++ "\n")),
         acts0 ++ [Act.mkdirA (filepathBase module),
           Act.runA ["go", "mod", "init", module] (filepathBase module),
           Act.writeA (filepathJoin (filepathBase module) "main.go") mainGoContents]⟩
        h1x h2x h3x n8 h4x h5x n12 n13 h6x]
      simp only [copyEmbeddedFSList]
      refine ⟨(createModuleFinish_parts _ _ _ _ _ _ _).1, ?_, ?_⟩
      · rw [createModuleFinish_acts]
        simp [List.append_assoc]
      · simp [dgo]
  · intro hfail
    exact cm_abort env module (if nova then ["nova"] else []) quiet fs0 out0 acts0
      hgo hA1 hA2 hfail

/-- Witness for C8: a plain workspace with the nova set requested. -/
theorem claim_C8_witness :
    ((createModuleFull envAllOk "foo" none (if true then ["nova"] else []) false
      ⟨FS.empty, "", []⟩).2.1 = .ok () ∧
    (createModuleFull envAllOk "foo" none (if true then ["nova"] else []) false
      ⟨FS.empty, "", []⟩).1.acts =
      [] ++ ([Act.mkdirA (filepathBase "foo"),
        Act.runA ["go", "mod", "init", "foo"] (filepathBase "foo"),
        Act.writeA (filepathJoin (filepathBase "foo") "main.go") mainGoContents] ++
        (if true then [Act.mkdirA (filepathJoin (filepathBase "foo") ".nova"),
          Act.mkdirA (filepathJoin (filepathBase "foo") ".nova/Tasks"),
          Act.writeA (filepathJoin (filepathBase "foo") ".nova/Tasks/Go.json")
            novaTaskContents] else [])) ∧
    (([Act.mkdirA (filepathBase "foo"),
        Act.runA ["go", "mod", "init", "foo"] (filepathBase "foo"),
        Act.writeA (filepathJoin (filepathBase "foo") "main.go") mainGoContents] ++
        (if true then [Act.mkdirA (filepathJoin (filepathBase "foo") ".nova"),
          Act.mkdirA (filepathJoin (filepathBase "foo") ".nova/Tasks"),
          Act.writeA (filepathJoin (filepathBase "foo") ".nova/Tasks/Go.json")
            novaTaskContents] else [])).countP
      (fun a => a = Act.writeA (filepathJoin (filepathBase "foo") "main.go")
        mainGoContents)) = 1) :=
  (claim_C8 envAllOk "foo" false true FS.empty "" [] (by decide) (by decide) (by decide)).1
    ⟨by decide, by decide, by decide, fun _ => by decide⟩

end Gmc
namespace Gmc

/-- Quiet-mode framing for the walk: starting from two states that agree on
filesystem and trace, the quiet and loud walks produce the same filesystem,
trace and result, and the quiet walk leaves the narration untouched. -/
theorem walkCopy_quiet (entries : List FTree) (srcRoot mb : String) (s1 s0 : St)
    (h1 : s1.fs = s0.fs) (h2 : s1.acts = s0.acts) :
    (walkCopy entries srcRoot mb true s1).1.fs = (walkCopy entries srcRoot mb false s0).1.fs ∧
    (walkCopy entries srcRoot mb true s1).1.acts =
      (walkCopy entries srcRoot mb false s0).1.acts ∧
    (walkCopy entries srcRoot mb true s1).2 = (walkCopy entries srcRoot mb false s0).2 ∧
    (walkCopy entries srcRoot mb true s1).1.out = s1.out := by
  induction entries generalizing s1 s0 with
  | nil => exact ⟨h1, h2, rfl, rfl⟩
  | cons e rest ih =>
    cases e with
    | dir p =>
      by_cases hr : p = srcRoot
      · simp only [walkCopy, FTree.path, if_pos hr]
        exact ih s1 s0 h1 h2
      · simp only [walkCopy, FTree.path, if_neg hr]
        rw [h1]
        cases hm : s0.fs.mkdir (filepathJoin mb (stripPathRoot p srcRoot)) with
        | error err => exact ⟨h1, h2, rfl, rfl⟩
        | ok fs1 =>
          simp only [reportCreatedDir_true, reportCreatedDir_false]
          exact ih
            ⟨fs1, s1.out, s1.acts ++ [.mkdirA (filepathJoin mb (stripPathRoot p srcRoot))]⟩
            ⟨fs1, s0.out ++ ("- Created directory: " ++
                filepathJoin mb (stripPathRoot p srcRoot) ++ "\n"),
              s0.acts ++ [.mkdirA (filepathJoin mb (stripPathRoot p srcRoot))]⟩
            rfl (by simp [h2])
    | file p c =>
      by_cases hr : p = srcRoot
      · simp only [walkCopy, FTree.path, if_pos hr]
        exact ih s1 s0 h1 h2
      · simp only [walkCopy, FTree.path, if_neg hr]
        rw [h1]
        cases hm : s0.fs.writeFile (filepathJoin mb (stripPathRoot p srcRoot)) c with
        | error err => exact ⟨h1, h2, rfl, rfl⟩
        | ok fs1 =>
          simp only [reportCreatedFile_true, reportCreatedFile_false]
          exact ih
            ⟨fs1, s1.out, s1.acts ++ [.writeA (filepathJoin mb (stripPathRoot p srcRoot)) c]⟩
            ⟨fs1, s0.out ++ ("- Created file     : " ++
                filepathJoin mb (stripPathRoot p srcRoot) ++ "\n"),
              s0.acts ++ [.writeA (filepathJoin mb (stripPathRoot p srcRoot)) c]⟩
            rfl (by simp [h2])

/-- Quiet-mode framing for one set deployment. -/
theorem copyEmbeddedFS_quiet (srcFS : List FTree) (src mb : String) (s1 s0 : St)
    (h1 : s1.fs = s0.fs) (h2 : s1.acts = s0.acts) :
    (copyEmbeddedFS srcFS src mb true s1).1.fs = (copyEmbeddedFS srcFS src mb false s0).1.fs ∧
    (copyEmbeddedFS srcFS src mb true s1).1.acts =
      (copyEmbeddedFS srcFS src mb false s0).1.acts ∧
    (copyEmbeddedFS srcFS src mb true s1).2 = (copyEmbeddedFS srcFS src mb false s0).2 ∧
    (copyEmbeddedFS srcFS src mb true s1).1.out = s1.out := by
  unfold copyEmbeddedFS
  dsimp only
  split
  · exact ⟨h1, h2, rfl, rfl⟩
  · exact walkCopy_quiet _ _ _ s1 s0 h1 h2

/-- Quiet-mode framing for the optional-set loop. -/
theorem copyEmbeddedFSList_quiet (srcFS : List FTree) (ds : List String) (mb : String)
    (s1 s0 : St) (h1 : s1.fs = s0.fs) (h2 : s1.acts = s0.acts) :
    (copyEmbeddedFSList srcFS ds mb true s1).1.fs =
      (copyEmbeddedFSList srcFS ds mb false s0).1.fs ∧
    (copyEmbeddedFSList srcFS ds mb true s1).1.acts =
      (copyEmbeddedFSList srcFS ds mb false s0).1.acts ∧
    (copyEmbeddedFSList srcFS ds mb true s1).2 =
      (copyEmbeddedFSList srcFS ds mb false s0).2 ∧
    (copyEmbeddedFSList srcFS ds mb true s1).1.out = s1.out := by
  induction ds generalizing s1 s0 with
  | nil => exact ⟨h1, h2, rfl, rfl⟩
  | cons d rest ih =>
    obtain ⟨qfs, qacts, q2, qout⟩ := copyEmbeddedFS_quiet srcFS d mb s1 s0 h1 h2
    simp only [copyEmbeddedFSList]
    cases hc1 : copyEmbeddedFS srcFS d mb true s1 with
    | mk a1 r1 =>
      cases hc0 : copyEmbeddedFS srcFS d mb false s0 with
      | mk a0 r0 =>
        rw [hc1] at qfs qacts q2 qout
        rw [hc0] at qfs qacts q2
        cases r0 with
        | error e =>
          have q2x : r1 = .error e := q2
          rw [q2x]
          exact ⟨qfs, qacts, rfl, qout⟩
        | ok u =>
          have q2x : r1 = .ok u := q2
          rw [q2x]
          obtain ⟨a, b, c, d2⟩ := ih a1 a0 qfs qacts
          exact ⟨a, b, c, d2.trans qout⟩

set_option maxHeartbeats 1000000 in
/-- Quiet-mode framing for the repository setup: from two states agreeing on
filesystem and trace, quiet and loud runs agree on filesystem, trace and
result, and the quiet run emits no narration. -/
theorem setUpGitRepo_quiet (env : Env) (repo : gitRepo) (module mb : String) (s1 s0 : St)
    (h1 : s1.fs = s0.fs) (h2 : s1.acts = s0.acts) :
    (setUpGitRepo env repo module mb true s1).1.fs =
      (setUpGitRepo env repo module mb false s0).1.fs ∧
    (setUpGitRepo env repo module mb true s1).1.acts =
      (setUpGitRepo env repo module mb false s0).1.acts ∧
    (setUpGitRepo env repo module mb true s1).2 = (setUpGitRepo env repo module mb false s0).2 ∧
    (setUpGitRepo env repo module mb true s1).1.out = s1.out := by
  cases he : env.userEmail with
  | none =>
    simp only [setUpGitRepo, he]
    exact ⟨by simp [h1], by simp [h2], by simp, by simp⟩
  | some e =>
    by_cases he2 : trimSpace e = ""
    · simp only [setUpGitRepo, he, if_pos he2]
      exact ⟨by simp [h1], by simp [h2], by simp, by simp⟩
    · cases hn : env.userName with
      | none =>
        simp only [setUpGitRepo, he, if_neg he2, hn]
        exact ⟨by simp [h1], by simp [h2], by simp, by simp⟩
      | some n =>
        by_cases hn2 : trimSpace n = ""
        · simp only [setUpGitRepo, he, if_neg he2, hn, if_pos hn2]
          exact ⟨by simp [h1], by simp [h2], by simp, by simp⟩
        · cases hi : env.gitInitOk with
          | false =>
            simp only [setUpGitRepo, he, if_neg he2, hn, if_neg hn2, hi, reduceIte]
            exact ⟨by simp [h1], by simp [h2], by simp, by simp⟩
          | true =>
            simp only [setUpGitRepo, he, if_neg he2, hn, if_neg hn2, hi, reduceIte,
              flogf_true, flogf_false]
            rw [h1]
            cases hw : s0.fs.writeFile (filepathJoin mb gitignoreFileName) mb with
            | error e1 => exact ⟨by simp [h1], by simp [h2], by simp, by simp⟩
            | ok fs1 =>
              simp only [reportCreatedFile_true, reportCreatedFile_false]
              cases hw2 : fs1.writeFile (filepathJoin mb readmeFileName) ("# " ++ mb ++ "\n\n") with
              | error e2 => exact ⟨by simp, by simp [h2], by simp, by simp⟩
              | ok fs2 =>
                simp only [reportCreatedFile_true, reportCreatedFile_false]
                cases ha : env.gitAddOk with
                | false =>
                  try simp only [reduceIte]
                  exact ⟨by simp, by simp [h2], by simp, by simp⟩
                | true =>
                  try simp only [reduceIte]
                  cases hc : env.gitCommitOk with
                  | false =>
                    try simp only [reduceIte]
                    exact ⟨by simp, by simp [h2], by simp, by simp⟩
                  | true =>
                    by_cases hnos : stringsReplaceFirst module '/' ':' = module
                    · simp only [if_pos hnos, flogf_true, flogf_false]
                      exact ⟨by simp, by simp [h2], by simp, by simp⟩
                    · simp only [if_neg hnos]
                      cases hra : env.gitRemoteAddOk with
                      | false =>
                        try simp only [reduceIte]
                        exact ⟨by simp, by simp [h2], by simp, by simp⟩
                      | true =>
                        try simp only [reduceIte, flogf_true, flogf_false]
                        exact ⟨by simp, by simp [h2], by simp, by simp⟩

/-- A quiet narration fold is the identity. -/
theorem foldlFlogf_true (l : List String) (st : St) :
    l.foldl (fun s step => flogf true ("- " ++ step ++ "\n") s) st = st := by
  induction l generalizing st with
  | nil => rfl
  | cons x rest ih => exact ih st

/-- The quiet finishing step leaves the state untouched. -/
theorem createModuleFinish_true (env : Env) (module mb : String) (extras : List String)
    (ns : List String) (st : St) :
    (createModuleFinish env module mb extras true ns st).1 = st := by
  unfold createModuleFinish
  dsimp only
  have hl : ∀ s : String, (ns ++ [s]).length > 0 := by simp
  rw [if_pos (hl _), foldlFlogf_true, flogf_true, flogf_true]

/-- The finishing step's outcome pair is independent of the state and of
quiet. -/
theorem createModuleFinish_res (env : Env) (module mb : String) (extras : List String)
    (q : Bool) (ns : List String) (st : St) :
    (createModuleFinish env module mb extras q ns st).2 =
      (.ok (), ns ++ ["Start coding: $ " ++
        (if extras.contains "nova" then "nova"
         else if env.editorEnvVar ≠ "" then env.editorEnvVar else "$EDITOR") ++ " " ++ mb]) := by
  unfold createModuleFinish
  dsimp only

theorem iteTF {α : Sort _} (a b : α) : (if true = false then a else b) = b := rfl

theorem iteFF {α : Sort _} (a b : α) : (if false = false then a else b) = a := rfl

set_option maxHeartbeats 1000000 in
/-- Quiet-mode framing for the full orchestrator. -/
theorem createModuleFull_quiet (env : Env) (module : String) (repo : Option gitRepo)
    (extras : List String) (s1 s0 : St) (h1 : s1.fs = s0.fs) (h2 : s1.acts = s0.acts) :
    (createModuleFull env module repo extras true s1).1.fs =
      (createModuleFull env module repo extras false s0).1.fs ∧
    (createModuleFull env module repo extras true s1).1.acts =
      (createModuleFull env module repo extras false s0).1.acts ∧
    (createModuleFull env module repo extras true s1).2 =
      (createModuleFull env module repo extras false s0).2 ∧
    (createModuleFull env module repo extras true s1).1.out = s1.out := by
  unfold createModuleFull
  simp only [flogf_true, flogf_false]
  rw [h1]
  cases hm : s0.fs.mkdir (filepathBase module) with
  | error e => exact ⟨by simp [h1], by simp [h2], by simp, by simp⟩
  | ok fs1 =>
    simp only [reportCreatedDir_true, reportCreatedDir_false]
    cases hgo : env.goModInitOk with
    | false => exact ⟨by simp, by simp [h2], by simp, by simp⟩
    | true =>
      simp only [iteTF]
      obtain ⟨qfs, qacts, q2, qout⟩ := copyEmbeddedFS_quiet assets assetsDefaultDir
        (filepathBase module)
        ⟨fs1, s1.out, s1.acts ++ [Act.mkdirA (filepathBase module)] ++
          [Act.runA ["go", "mod", "init", module] (filepathBase module)]⟩
        ⟨fs1, s0.out ++ ("Creating Go module: " ++ module ++ "\n") ++
            ("- Created directory: " ++ filepathBase module ++ "\n") ++
            "- Initialized Go module\n",
          s0.acts ++ [Act.mkdirA (filepathBase module)] ++
            [Act.runA ["go", "mod", "init", module] (filepathBase module)]⟩
        rfl (by simp [h2])
      cases hp1 : copyEmbeddedFS assets assetsDefaultDir (filepathBase module) true
        ⟨fs1, s1.out, s1.acts ++ [Act.mkdirA (filepathBase module)] ++
          [Act.runA ["go", "mod", "init", module] (filepathBase module)]⟩ with
      | mk a1 r1 =>
      cases hp0 : copyEmbeddedFS assets assetsDefaultDir (filepathBase module) false
        ⟨fs1, s0.out ++ ("Creating Go module: " ++ module ++ "\n") ++
            ("- Created directory: " ++ filepathBase module ++ "\n") ++
            "- Initialized Go module\n",
          s0.acts ++ [Act.mkdirA (filepathBase module)] ++
            [Act.runA ["go", "mod", "init", module] (filepathBase module)]⟩ with
      | mk a0 r0 =>
      rw [hp1] at qfs qacts q2 qout
      rw [hp0] at qfs qacts q2
      cases r0 with
      | error e =>
        have q2x : r1 = .error e := q2
        rw [q2x]
        exact ⟨qfs, qacts, rfl, qout⟩
      | ok u =>
        have q2x : r1 = .ok u := q2
        rw [q2x]
        dsimp only
        obtain ⟨wfs, wacts, w2, wout⟩ := copyEmbeddedFSList_quiet assets extras
          (filepathBase module) a1 a0 qfs qacts
        cases hl1 : copyEmbeddedFSList assets extras (filepathBase module) true a1 with
        | mk b1 u1 =>
        cases hl0 : copyEmbeddedFSList assets extras (filepathBase module) false a0 with
        | mk b0 u0 =>
        rw [hl1] at wfs wacts w2 wout
        rw [hl0] at wfs wacts w2
        cases u0 with
        | error e2 =>
          have w2x : u1 = .error e2 := w2
          rw [w2x]
          exact ⟨wfs, wacts, rfl, wout.trans qout⟩
        | ok u3 =>
          have w2x : u1 = .ok u3 := w2
          rw [w2x]
          dsimp only
          cases repo with
          | none =>
            dsimp only
            exact ⟨by rw [createModuleFinish_fs, createModuleFinish_fs]; exact wfs,
              by rw [createModuleFinish_acts, createModuleFinish_acts]; exact wacts,
              by rw [createModuleFinish_res, createModuleFinish_res],
              by rw [createModuleFinish_true]; exact wout.trans qout⟩
          | some r =>
            dsimp only
            obtain ⟨gfs, gacts, g2, gout⟩ := setUpGitRepo_quiet env r module
              (filepathBase module) b1 b0 wfs wacts
            cases hs1 : setUpGitRepo env r module (filepathBase module) true b1 with
            | mk c1 v1 =>
            cases hs0 : setUpGitRepo env r module (filepathBase module) false b0 with
            | mk c0 v0 =>
            rw [hs1] at gfs gacts g2 gout
            rw [hs0] at gfs gacts g2
            cases v0 with
            | error e3 =>
              have g2x : v1 = .error e3 := g2
              rw [g2x]
              exact ⟨gfs, gacts, rfl, gout.trans (wout.trans qout)⟩
            | ok ns =>
              have g2x : v1 = .ok ns := g2
              rw [g2x]
              dsimp only
              exact ⟨by rw [createModuleFinish_fs, createModuleFinish_fs]; exact gfs,
                by rw [createModuleFinish_acts, createModuleFinish_acts]; exact gacts,
                by rw [createModuleFinish_res, createModuleFinish_res],
                by rw [createModuleFinish_true]; exact gout.trans (wout.trans qout)⟩

set_option maxHeartbeats 1000000 in
/-- Counterexample to C3's error-stream clause: with the workspace path
already taken, the run fails with exit code 1 in both modes, but the
non-quiet run writes the wrapped error to the error stream while the quiet
run writes nothing (the ExitErrHandler reports through flogf, which quiet
silences). -/
theorem claim_C3_counterexample :
    (runApp envAllOk (some "main") "foo" false false false ⟨["foo"], []⟩).exitCode = 1 ∧
    (runApp envAllOk (some "main") "foo" false false false ⟨["foo"], []⟩).errOut =
      "Failed to create Go module: foo: mkdir foo: file exists\n" ∧
    (runApp envAllOk (some "main") "foo" false false true ⟨["foo"], []⟩).exitCode = 1 ∧
    (runApp envAllOk (some "main") "foo" false false true ⟨["foo"], []⟩).errOut = "" ∧
    (runApp envAllOk (some "main") "foo" false false true ⟨["foo"], []⟩).errOut ≠
      (runApp envAllOk (some "main") "foo" false false false ⟨["foo"], []⟩).errOut := by
  refine ⟨rfl, rfl, rfl, rfl, ?_⟩
  decide

set_option maxHeartbeats 1000000 in
/-- C3 (amended): quiet runs produce exactly the same filesystem, action
trace, exit code and next steps as non-quiet runs, with empty narration; but
quiet also empties the error stream, because the app's ExitErrHandler
reports the failure through the quiet-gated logger. -/
theorem claim_C3_amended (env : Env) (b : Option String) (module : String)
    (git nova : Bool) (fs0 : FS) :
    (runApp env b module git nova true fs0).st.fs =
      (runApp env b module git nova false fs0).st.fs ∧
    (runApp env b module git nova true fs0).st.acts =
      (runApp env b module git nova false fs0).st.acts ∧
    (runApp env b module git nova true fs0).exitCode =
      (runApp env b module git nova false fs0).exitCode ∧
    (runApp env b module git nova true fs0).nextSteps =
      (runApp env b module git nova false fs0).nextSteps ∧
    (runApp env b module git nova true fs0).st.out = "" ∧
    (runApp env b module git nova true fs0).errOut = "" := by
  obtain ⟨qfs, qacts, q2, qout⟩ := createModuleFull_quiet env module
    (if git then some ⟨b⟩ else none) (if nova then ["nova"] else [])
    ⟨fs0, "", []⟩ ⟨fs0, "", []⟩ rfl rfl
  unfold runApp
  dsimp only
  cases hr1 : createModuleFull env module (if git then some ⟨b⟩ else none)
      (if nova then ["nova"] else []) true ⟨fs0, "", []⟩ with
  | mk st1 p1 =>
  cases hr0 : createModuleFull env module (if git then some ⟨b⟩ else none)
      (if nova then ["nova"] else []) false ⟨fs0, "", []⟩ with
  | mk st0 p0 =>
  rw [hr1] at qfs qacts q2 qout
  rw [hr0] at qfs qacts q2
  cases p1 with
  | mk res1 ns1 =>
  cases p0 with
  | mk res0 ns0 =>
  have q2x : (res1, ns1) = (res0, ns0) := q2
  injection q2x with hres hns
  subst hres
  subst hns
  cases res1 with
  | ok u => exact ⟨qfs, qacts, rfl, rfl, qout, rfl⟩
  | error e => exact ⟨qfs, qacts, rfl, rfl, qout, rfl⟩

end Gmc
